import Mathlib

/-!
# Verification of the opencode-configer storage and discovery layer

A shallow embedding of `opencode_configer/config_io.py`,
`opencode_configer/server.py` and the relevant shapes from
`opencode_configer/models.py`, together with proofs of the behavioural
claims about them.

The embedding models:

* JSON values (`Json`), Python's `json.dumps(data, indent=2,
  ensure_ascii=False)` serializer (`render` / `dumps`) and a JSON parser
  (`parseValue` / `loads`) standing for `json.loads`;
* a filesystem (`FS`) with files, directories, POSIX path joining as done
  by `pathlib` (`pathJoin`) and `..` resolution as done by the OS
  (`normalize`);
* the storage operations `save_set`, `load_set`, `apply_set`,
  `delete_set`, `list_sets`, and the active-pair read/write operations;
* the model-discovery handler `fetch_provider_models`.

JSON numbers are embedded as integers; the configuration payloads the
program manages are objects of strings, booleans and integers, and none
of the claims depends on float-valued numbers.
-/

/-- A JSON value.  Python dicts preserve insertion order, so objects are
association lists. -/
inductive Json where
  | null
  | bool (b : Bool)
  | num (n : Int)
  | str (s : String)
  | arr (elems : List Json)
  | obj (members : List (String × Json))
deriving Repr

namespace Json

/-- `d.get(k)` on a Python dict: the value at the first matching key. -/
def lookup (k : String) : List (String × Json) → Option Json
  | [] => none
  | (k', v) :: ms => if k' = k then some v else lookup k ms

/-- Python truthiness of a JSON value ( `if m.get("id"):` style tests). -/
def truthy : Json → Bool
  | .null => false
  | .bool b => b
  | .num n => n != 0
  | .str s => s != ""
  | .arr xs => !xs.isEmpty
  | .obj ms => !ms.isEmpty

end Json

/-! ## Characters used by the serializer -/

/-- The double-quote character. -/
def quoteC : Char := Char.ofNat 34

/-- The backslash character. -/
def backslashC : Char := Char.ofNat 92

/-- The opening curly bracket. -/
def lbraceC : Char := Char.ofNat 123

/-- The closing curly bracket. -/
def rbraceC : Char := Char.ofNat 125

/-- One decimal digit as a character. -/
def digitChar (d : Nat) : Char := Char.ofNat (48 + d)

/-- One lowercase hexadecimal digit as a character. -/
def hexDigitChar (d : Nat) : Char :=
  if d < 10 then Char.ofNat (48 + d) else Char.ofNat (87 + d)

/-- Decimal digits of `n`, most significant first, prepended to `acc`;
`fuel` is a structural recursion budget, adequate whenever `n ≤ fuel`. -/
def natCharsAux : Nat → Nat → List Char → List Char
  | 0, n, acc => digitChar n :: acc
  | fuel + 1, n, acc =>
    if n < 10 then digitChar n :: acc
    else natCharsAux fuel (n / 10) (digitChar (n % 10) :: acc)

/-- Decimal digits of `n`, most significant first. -/
def natChars (n : Nat) : List Char := natCharsAux n n []

/-- `json.dumps` rendering of an integer. -/
def renderInt (n : Int) : List Char :=
  if n < 0 then '-' :: natChars n.natAbs else natChars n.toNat

/-- How Python's `json` module escapes a single character inside a string
literal when `ensure_ascii=False`: shortcuts for the common control
characters, `\u00xx` for the other control characters, backslash escapes
for the quote and the backslash, everything else verbatim. -/
def escChar (c : Char) : List Char :=
  if c = quoteC then [backslashC, quoteC]
  else if c = backslashC then [backslashC, backslashC]
  else if c = '\n' then [backslashC, 'n']
  else if c = '\t' then [backslashC, 't']
  else if c = '\r' then [backslashC, 'r']
  else if c = Char.ofNat 8 then [backslashC, 'b']
  else if c = Char.ofNat 12 then [backslashC, 'f']
  else if c.toNat < 32 then
    [backslashC, 'u', '0', '0'] ++ [hexDigitChar (c.toNat / 16), hexDigitChar (c.toNat % 16)]
  else [c]

/-- Escape every character of a string body. -/
def escChars : List Char → List Char
  | [] => []
  | c :: cs => escChar c ++ escChars cs

/-- A rendered string literal: quote, escaped body, quote. -/
def renderStr (s : String) : List Char :=
  quoteC :: escChars s.data ++ [quoteC]

/-- The newline-plus-indentation emitted between items by
`json.dumps(..., indent=2)`. -/
def nlIndent (ind : Nat) : List Char := '\n' :: List.replicate ind ' '

mutual

/-- `json.dumps(v, indent=2, ensure_ascii=False)` at indentation level
`ind`, as a character list. -/
def render (ind : Nat) : Json → List Char
  | .null => "null".data
  | .bool true => "true".data
  | .bool false => "false".data
  | .num n => renderInt n
  | .str s => renderStr s
  | .arr [] => ['[', ']']
  | .arr (x :: xs) =>
      '[' :: (nlIndent (ind + 2) ++ render (ind + 2) x ++ renderArrTail (ind + 2) xs
        ++ nlIndent ind ++ [']'])
  | .obj [] => [lbraceC, rbraceC]
  | .obj (m :: ms) =>
      lbraceC :: (nlIndent (ind + 2) ++ renderMember (ind + 2) m ++ renderObjTail (ind + 2) ms
        ++ nlIndent ind ++ [rbraceC])

/-- The remaining array items, each preceded by `,` and fresh indentation. -/
def renderArrTail (ind : Nat) : List Json → List Char
  | [] => []
  | x :: xs => ',' :: (nlIndent ind ++ render ind x ++ renderArrTail ind xs)

/-- One `"key": value` member. -/
def renderMember (ind : Nat) (m : String × Json) : List Char :=
  renderStr m.1 ++ [':', ' '] ++ render ind m.2

/-- The remaining object members, each preceded by `,` and fresh
indentation. -/
def renderObjTail (ind : Nat) : List (String × Json) → List Char
  | [] => []
  | m :: ms => ',' :: (nlIndent ind ++ renderMember ind m ++ renderObjTail ind ms)

end

/-- `json.dumps(data, indent=2, ensure_ascii=False) + "\n"` — the exact
file content produced by `_write_json`. -/
def dumps (d : Json) : List Char := render 0 d ++ ['\n']

/-! ## A JSON parser, standing for `json.loads`

The parser accepts the grammar produced by the serializer (and arbitrary
inter-token whitespace); `loads` requires the whole input to be consumed
up to trailing whitespace, as `json.loads` does. -/

/-- JSON inter-token whitespace. -/
def isWsChar (c : Char) : Bool :=
  c == ' ' || c == '\n' || c == '\t' || c == '\r'

/-- Drop leading whitespace. -/
def skipWs : List Char → List Char
  | [] => []
  | c :: cs => if isWsChar c then skipWs cs else c :: cs

/-- Value of one hexadecimal digit. -/
def hexVal (c : Char) : Option Nat :=
  if 48 ≤ c.toNat && c.toNat ≤ 57 then some (c.toNat - 48)
  else if 97 ≤ c.toNat && c.toNat ≤ 102 then some (c.toNat - 87)
  else if 65 ≤ c.toNat && c.toNat ≤ 70 then some (c.toNat - 55)
  else none

/-- The character denoted by a single-letter escape. -/
def unescChar (c : Char) : Option Char :=
  if c = quoteC then some quoteC
  else if c = backslashC then some backslashC
  else if c = '/' then some '/'
  else if c = 'n' then some '\n'
  else if c = 't' then some '\t'
  else if c = 'r' then some '\r'
  else if c = 'b' then some (Char.ofNat 8)
  else if c = 'f' then some (Char.ofNat 12)
  else none

/-- Parse the body of a string literal after the opening quote, up to and
including the closing quote; returns the decoded characters and the rest
of the input. -/
def parseStrBody : List Char → Option (List Char × List Char)
  | [] => none
  | c :: cs =>
    if c = quoteC then some ([], cs)
    else if c = backslashC then
      match cs with
      | [] => none
      | e :: cs' =>
        if e = 'u' then
          match cs' with
          | h1 :: h2 :: h3 :: h4 :: cs'' =>
            match hexVal h1, hexVal h2, hexVal h3, hexVal h4 with
            | some a, some b, some x, some y =>
              (parseStrBody cs'').map
                (fun p => (Char.ofNat (4096 * a + 256 * b + 16 * x + y) :: p.1, p.2))
            | _, _, _, _ => none
          | _ => none
        else
          match unescChar e with
          | some d => (parseStrBody cs').map (fun p => (d :: p.1, p.2))
          | none => none
    else (parseStrBody cs).map (fun p => (c :: p.1, p.2))
termination_by structural cs => cs

/-- Decimal digit test. -/
def isDigitC (c : Char) : Bool := 48 ≤ c.toNat && c.toNat ≤ 57

/-- Longest digit prefix and the remaining input. -/
def takeDigits : List Char → List Char × List Char
  | [] => ([], [])
  | c :: cs =>
    if isDigitC c then
      let p := takeDigits cs
      (c :: p.1, p.2)
    else ([], c :: cs)

/-- Numeric value of a digit string. -/
def digitsVal (ds : List Char) : Nat :=
  ds.foldl (fun a c => a * 10 + (c.toNat - 48)) 0

/-- Parse an integer literal (the serializer never emits floats). -/
def parseNumber : List Char → Option (Json × List Char)
  | [] => none
  | c :: cs =>
    if c = '-' then
      let p := takeDigits cs
      if p.1.isEmpty then none else some (.num (-(digitsVal p.1 : Int)), p.2)
    else
      let p := takeDigits (c :: cs)
      if p.1.isEmpty then none else some (.num ((digitsVal p.1 : Int)), p.2)

mutual

/-- Size measure of a value, used as the parser's recursion budget. -/
def sizeJ : Json → Nat
  | .null => 1
  | .bool _ => 1
  | .num _ => 1
  | .str _ => 1
  | .arr xs => 2 + sizeListJ xs
  | .obj ms => 2 + sizeMembersJ ms

def sizeListJ : List Json → Nat
  | [] => 0
  | x :: xs => sizeJ x + 1 + sizeListJ xs

def sizeMembersJ : List (String × Json) → Nat
  | [] => 0
  | m :: ms => sizeJ m.2 + 1 + sizeMembersJ ms

end

mutual

/-- Parse one JSON value after skipping leading whitespace. -/
def parseValue : Nat → List Char → Option (Json × List Char)
  | 0, _ => none
  | fuel + 1, cs =>
    match skipWs cs with
    | [] => none
    | c :: cs' =>
      if c = lbraceC then parseObjBody fuel cs'
      else if c = '[' then parseArrBody fuel cs'
      else if c = quoteC then (parseStrBody cs').map (fun p => (.str (String.mk p.1), p.2))
      else if c = 'n' then
        match cs' with
        | 'u' :: 'l' :: 'l' :: r => some (.null, r)
        | _ => none
      else if c = 't' then
        match cs' with
        | 'r' :: 'u' :: 'e' :: r => some (.bool true, r)
        | _ => none
      else if c = 'f' then
        match cs' with
        | 'a' :: 'l' :: 's' :: 'e' :: r => some (.bool false, r)
        | _ => none
      else parseNumber (c :: cs')
termination_by structural fuel => fuel

/-- Parse an array body after the opening bracket. -/
def parseArrBody : Nat → List Char → Option (Json × List Char)
  | 0, _ => none
  | fuel + 1, cs =>
    match skipWs cs with
    | [] => none
    | c :: r =>
      if c = ']' then some (.arr [], r)
      else
        match parseValue fuel (c :: r) with
        | none => none
        | some (x, r') =>
          match parseArrTail fuel r' with
          | none => none
          | some (xs, r'') => some (.arr (x :: xs), r'')
termination_by structural fuel => fuel

/-- Parse `, value`* `]` after one array element. -/
def parseArrTail : Nat → List Char → Option (List Json × List Char)
  | 0, _ => none
  | fuel + 1, cs =>
    match skipWs cs with
    | [] => none
    | c :: r =>
      if c = ']' then some ([], r)
      else if c = ',' then
        match parseValue fuel r with
        | none => none
        | some (x, r') =>
          match parseArrTail fuel r' with
          | none => none
          | some (xs, r'') => some (x :: xs, r'')
      else none
termination_by structural fuel => fuel

/-- Parse an object body after the opening brace: either the closing
brace, or a first `"key": value` member followed by the remaining
members. -/
def parseObjBody : Nat → List Char → Option (Json × List Char)
  | 0, _ => none
  | fuel + 1, cs =>
    match skipWs cs with
    | [] => none
    | c :: r =>
      if c = rbraceC then some (.obj [], r)
      else if c = quoteC then
        match parseStrBody r with
        | none => none
        | some (k, r') =>
          match skipWs r' with
          | ':' :: r'' =>
            match parseValue fuel r'' with
            | none => none
            | some (v, rest) =>
              match parseObjTail fuel rest with
              | none => none
              | some (ms, r3) => some (.obj ((String.mk k, v) :: ms), r3)
          | _ => none
      else none
termination_by structural fuel => fuel

/-- Parse `, "key": value`* and the closing brace after one member. -/
def parseObjTail : Nat → List Char → Option (List (String × Json) × List Char)
  | 0, _ => none
  | fuel + 1, cs =>
    match skipWs cs with
    | c :: r =>
      if c = rbraceC then some ([], r)
      else if c = ',' then
        match skipWs r with
        | c' :: r' =>
          if c' = quoteC then
            match parseStrBody r' with
            | none => none
            | some (k, r2) =>
              match skipWs r2 with
              | ':' :: r3 =>
                match parseValue fuel r3 with
                | none => none
                | some (v, rest) =>
                  match parseObjTail fuel rest with
                  | none => none
                  | some (ms, r4) => some ((String.mk k, v) :: ms, r4)
              | _ => none
          else none
        | [] => none
      else none
    | [] => none
termination_by structural fuel => fuel

end

/-- `json.loads`: parse a complete document, allowing trailing
whitespace only. -/
def loads (cs : List Char) : Option Json :=
  match parseValue (cs.length + 1) cs with
  | some (j, rest) => if (skipWs rest).isEmpty then some j else none
  | none => none

/-! ## Round-trip: the parser inverts the serializer -/

theorem skipWs_ws_append (n : Nat) (cs : List Char) :
    skipWs (List.replicate n ' ' ++ cs) = skipWs cs := by
  induction n with
  | zero => rfl
  | succ n ih => simpa [List.replicate_succ, skipWs, isWsChar] using ih

theorem skipWs_nlIndent (ind : Nat) (cs : List Char) :
    skipWs (nlIndent ind ++ cs) = skipWs cs := by
  simp [nlIndent, List.cons_append, skipWs, isWsChar, skipWs_ws_append]

theorem skipWs_not_ws {c : Char} (cs : List Char) (h : isWsChar c = false) :
    skipWs (c :: cs) = c :: cs := by
  simp [skipWs, h]

theorem parseValue_congr {cs cs' : List Char} (fuel : Nat) (h : skipWs cs = skipWs cs') :
    parseValue fuel cs = parseValue fuel cs' := by
  cases fuel with
  | zero => rfl
  | succ f => simp only [parseValue, h]

/-- Hex digits emitted for control characters decode to their value. -/
theorem hexVal_hexDigitChar (d : Nat) (h : d < 16) : hexVal (hexDigitChar d) = some d := by
  interval_cases d <;> decide

theorem parseStrBody_escChar (c : Char) (tail : List Char) :
    parseStrBody (escChar c ++ tail) =
      (parseStrBody tail).map (fun p => (c :: p.1, p.2)) := by
  unfold escChar
  split_ifs with h1 h2 h3 h4 h5 h6 h7 h8
  · subst h1; rw [parseStrBody.eq_def]; simp +decide [unescChar]
  · subst h2; rw [parseStrBody.eq_def]; simp +decide [unescChar]
  · subst h3; rw [parseStrBody.eq_def]; simp +decide [unescChar]
  · subst h4; rw [parseStrBody.eq_def]; simp +decide [unescChar]
  · subst h5; rw [parseStrBody.eq_def]; simp +decide [unescChar]
  · subst h6; rw [parseStrBody.eq_def]; simp +decide [unescChar]
  · subst h7; rw [parseStrBody.eq_def]; simp +decide [unescChar]
  · have e1 : c.toNat / 16 < 16 := by omega
    have e2 : c.toNat % 16 < 16 := by omega
    have hx := hexVal_hexDigitChar _ e1
    have hy := hexVal_hexDigitChar _ e2
    revert hx hy
    generalize hexDigitChar (c.toNat / 16) = X
    generalize hexDigitChar (c.toNat % 16) = Y
    intro hx hy
    have h0 : hexVal '0' = some 0 := by decide
    rw [parseStrBody.eq_def]
    simp +decide [h0, hx, hy]
    have harith : 16 * (c.toNat / 16) + c.toNat % 16 = c.toNat := by omega
    rw [harith, Char.ofNat_toNat]
  · rw [parseStrBody.eq_def]
    simp only [List.singleton_append]
    rw [if_neg h1, if_neg h2]

theorem parseStrBody_escChars (s rest : List Char) :
    parseStrBody (escChars s ++ quoteC :: rest) = some (s, rest) := by
  induction s with
  | nil =>
    show parseStrBody (quoteC :: rest) = some ([], rest)
    rw [parseStrBody.eq_def]
    simp
  | cons c cs ih => simp [escChars, List.append_assoc, parseStrBody_escChar, ih]

/-- `true` when the input does not begin with a decimal digit, so that a
preceding number literal cannot absorb it. -/
def noDigitHead : List Char → Bool
  | [] => true
  | c :: _ => !(isDigitC c)

theorem natCharsAux_acc (fuel : Nat) :
    ∀ n acc, natCharsAux fuel n acc = natCharsAux fuel n [] ++ acc := by
  induction fuel with
  | zero => intro n acc; simp [natCharsAux]
  | succ fuel ih =>
    intro n acc
    by_cases h : n < 10
    · simp [natCharsAux, h]
    · simp only [natCharsAux, if_neg h]
      rw [ih (n / 10) (digitChar (n % 10) :: acc), ih (n / 10) [digitChar (n % 10)]]
      simp

theorem digitChar_isDigit (d : Nat) (h : d < 10) : isDigitC (digitChar d) = true := by
  interval_cases d <;> decide

theorem digitChar_toNat (d : Nat) (h : d < 10) : (digitChar d).toNat = 48 + d := by
  interval_cases d <;> decide

theorem natCharsAux_digits :
    ∀ fuel n, n ≤ fuel → ∀ c ∈ natCharsAux fuel n [], isDigitC c = true := by
  intro fuel
  induction fuel with
  | zero =>
    intro n hn c hc
    interval_cases n
    simp [natCharsAux] at hc
    subst hc; decide
  | succ fuel ih =>
    intro n hn c hc
    by_cases h : n < 10
    · simp [natCharsAux, h] at hc
      subst hc; exact digitChar_isDigit n h
    · rw [natCharsAux, if_neg h, natCharsAux_acc] at hc
      rcases List.mem_append.mp hc with h1 | h2
      · exact ih (n / 10) (by omega) c h1
      · simp at h2
        subst h2; exact digitChar_isDigit _ (Nat.mod_lt _ (by omega))

theorem natCharsAux_ne_nil (fuel n : Nat) : natCharsAux fuel n [] ≠ [] := by
  cases fuel with
  | zero => simp [natCharsAux]
  | succ fuel =>
    by_cases h : n < 10
    · simp [natCharsAux, h]
    · simp only [natCharsAux, if_neg h]
      rw [natCharsAux_acc]
      simp

theorem digitsVal_append_last (xs : List Char) (c : Char) :
    digitsVal (xs ++ [c]) = digitsVal xs * 10 + (c.toNat - 48) := by
  simp [digitsVal, List.foldl_append]

theorem digitsVal_natCharsAux : ∀ fuel n, n ≤ fuel → digitsVal (natCharsAux fuel n []) = n := by
  intro fuel
  induction fuel with
  | zero =>
    intro n hn
    interval_cases n
    decide
  | succ fuel ih =>
    intro n hn
    by_cases h : n < 10
    · simp only [natCharsAux, if_pos h]
      show digitsVal [digitChar n] = n
      simp [digitsVal]
      rw [digitChar_toNat n h]
      omega
    · simp only [natCharsAux, if_neg h]
      rw [natCharsAux_acc, digitsVal_append_last, ih (n / 10) (by omega),
        digitChar_toNat _ (Nat.mod_lt _ (by omega))]
      omega

theorem natChars_digits (n : Nat) : ∀ c ∈ natChars n, isDigitC c = true :=
  natCharsAux_digits n n le_rfl

theorem natChars_ne_nil (n : Nat) : natChars n ≠ [] := natCharsAux_ne_nil n n

theorem digitsVal_natChars (n : Nat) : digitsVal (natChars n) = n :=
  digitsVal_natCharsAux n n le_rfl

theorem takeDigits_of_digits :
    ∀ ds rest, (∀ c ∈ ds, isDigitC c = true) → noDigitHead rest = true →
      takeDigits (ds ++ rest) = (ds, rest) := by
  intro ds
  induction ds with
  | nil =>
    intro rest _ hr
    cases rest with
    | nil => rfl
    | cons c cs =>
      simp [noDigitHead] at hr
      simp [takeDigits, hr]
  | cons c cs ih =>
    intro rest hd hr
    have hc := hd c (by simp)
    simp only [List.cons_append, takeDigits, hc, if_pos]
    simp [ih rest (fun x hx => hd x (by simp [hx])) hr]

theorem parseNumber_renderInt (n : Int) (rest : List Char) (hr : noDigitHead rest = true) :
    parseNumber (renderInt n ++ rest) = some (.num n, rest) := by
  by_cases h : n < 0
  · rw [renderInt, if_pos h]
    simp only [List.cons_append, parseNumber, if_pos rfl]
    rw [takeDigits_of_digits _ rest (natChars_digits _) hr]
    have hval : -((digitsVal (natChars n.natAbs)) : Int) = n := by
      rw [digitsVal_natChars]; omega
    simp only [List.isEmpty_iff, natChars_ne_nil n.natAbs, if_neg, hval,
      Bool.false_eq_true]
    simp [List.isEmpty_iff, natChars_ne_nil n.natAbs]
  · rw [renderInt, if_neg h]
    obtain ⟨d, ds, hds⟩ : ∃ d ds, natChars n.toNat = d :: ds := by
      cases hnc : natChars n.toNat with
      | nil => exact absurd hnc (natChars_ne_nil _)
      | cons d ds => exact ⟨d, ds, rfl⟩
    have hd : isDigitC d = true := natChars_digits n.toNat d (by rw [hds]; simp)
    have hdm : ¬(d = '-') := by
      intro e; subst e; exact absurd hd (by decide)
    rw [hds]
    simp only [List.cons_append, parseNumber, if_neg hdm]
    rw [show d :: (ds ++ rest) = (d :: ds) ++ rest from rfl, ← hds,
      takeDigits_of_digits _ rest (natChars_digits _) hr]
    have hval : ((digitsVal (natChars n.toNat)) : Int) = n := by
      rw [digitsVal_natChars]; omega
    simp only [List.isEmpty_iff, natChars_ne_nil n.toNat, if_neg, hval,
      Bool.false_eq_true]
    simp [List.isEmpty_iff, natChars_ne_nil n.toNat]

theorem sizeJ_pos (j : Json) : 1 ≤ sizeJ j := by
  cases j <;> simp [sizeJ] <;> omega

theorem sizeListJ_of_mem {x : Json} {xs : List Json} (h : x ∈ xs) :
    sizeJ x ≤ sizeListJ xs := by
  induction xs with
  | nil => cases h
  | cons y ys ih =>
    rcases List.mem_cons.mp h with rfl | h'
    · simp [sizeListJ]; omega
    · have := ih h'
      simp [sizeListJ]; omega

theorem sizeMembersJ_of_mem {m : String × Json} {ms : List (String × Json)} (h : m ∈ ms) :
    sizeJ m.2 ≤ sizeMembersJ ms := by
  induction ms with
  | nil => cases h
  | cons y ys ih =>
    rcases List.mem_cons.mp h with rfl | h'
    · simp [sizeMembersJ]; omega
    · have := ih h'
      simp [sizeMembersJ]; omega

theorem renderInt_head (n : Int) :
    ∃ d ds, renderInt n = d :: ds ∧ (d = '-' ∨ isDigitC d = true) := by
  by_cases h : n < 0
  · exact ⟨'-', natChars n.natAbs, by rw [renderInt, if_pos h], Or.inl rfl⟩
  · obtain ⟨d, ds, hds⟩ : ∃ d ds, natChars n.toNat = d :: ds := by
      cases hnc : natChars n.toNat with
      | nil => exact absurd hnc (natChars_ne_nil _)
      | cons d ds => exact ⟨d, ds, rfl⟩
    refine ⟨d, ds, by rw [renderInt, if_neg h, hds], Or.inr ?_⟩
    exact natChars_digits n.toNat d (by rw [hds]; simp)

theorem isDigitC_head_facts (c : Char) (h : isDigitC c = true) :
    ¬(c = lbraceC) ∧ ¬(c = '[') ∧ ¬(c = quoteC) ∧
      ¬(c = 'n') ∧ ¬(c = 't') ∧ ¬(c = 'f') ∧
      ¬(c = ']') ∧ isWsChar c = false := by
  simp only [isDigitC, Bool.and_eq_true, decide_eq_true_eq] at h
  obtain ⟨h1, h2⟩ := h
  refine ⟨?_, ?_, ?_, ?_, ?_, ?_, ?_, ?_⟩
  · intro e; subst e; revert h2; decide
  · intro e; subst e; revert h2; decide
  · intro e; subst e; revert h1; decide
  · intro e; subst e; revert h2; decide
  · intro e; subst e; revert h2; decide
  · intro e; subst e; revert h2; decide
  · intro e; subst e; revert h2; decide
  · cases hw : isWsChar c
    · rfl
    · exfalso
      simp only [isWsChar, Bool.or_eq_true, beq_iff_eq] at hw
      rcases hw with ((e | e) | e) | e <;> subst e <;> revert h1 <;> decide

/-- Every rendered value begins with a character that is neither
whitespace nor a closing bracket. -/
theorem render_head (ind : Nat) (j : Json) :
    ∃ c cs, render ind j = c :: cs ∧ isWsChar c = false ∧ ¬(c = ']') := by
  cases j with
  | null => exact ⟨'n', _, rfl, by decide, by decide⟩
  | bool b =>
    cases b with
    | false => exact ⟨'f', _, rfl, by decide, by decide⟩
    | true => exact ⟨'t', _, rfl, by decide, by decide⟩
  | num n =>
    obtain ⟨d, ds, hds, hd⟩ := renderInt_head n
    refine ⟨d, ds, by simp [render, hds], ?_, ?_⟩
    · rcases hd with rfl | hd
      · decide
      · exact (isDigitC_head_facts d hd).2.2.2.2.2.2.2
    · rcases hd with rfl | hd
      · decide
      · exact (isDigitC_head_facts d hd).2.2.2.2.2.2.1
  | str s => exact ⟨quoteC, _, rfl, by decide, by decide⟩
  | arr xs =>
    cases xs with
    | nil => exact ⟨'[', _, rfl, by decide, by decide⟩
    | cons x xs => exact ⟨'[', _, rfl, by decide, by decide⟩
  | obj ms =>
    cases ms with
    | nil => exact ⟨lbraceC, _, rfl, by decide, by decide⟩
    | cons m ms => exact ⟨lbraceC, _, rfl, by decide, by decide⟩

theorem stringMk_data (s : String) : String.mk s.data = s := by cases s; rfl

def ParsesTo (j : Json) : Prop :=
  ∀ ind fuel rest, sizeJ j ≤ fuel → noDigitHead rest = true →
    parseValue fuel (render ind j ++ rest) = some (j, rest)

theorem noDigitHead_arrTail (ind ind2 : Nat) (xs : List Json) (w : List Char) :
    noDigitHead (renderArrTail ind xs ++ (nlIndent ind2 ++ w)) = true := by
  cases xs <;> rfl

theorem parseArrTail_round (xs : List Json) (IH : ∀ x ∈ xs, ParsesTo x) :
    ∀ ind ind2 fuel rest, sizeListJ xs + 1 ≤ fuel → noDigitHead rest = true →
      parseArrTail fuel (renderArrTail ind xs ++ (nlIndent ind2 ++ (']' :: rest)))
        = some (xs, rest) := by
  induction xs with
  | nil =>
    intro ind ind2 fuel rest hf hr
    obtain ⟨f, rfl⟩ : ∃ f, fuel = f + 1 := ⟨fuel - 1, by omega⟩
    have hsk : skipWs (renderArrTail ind [] ++ (nlIndent ind2 ++ (']' :: rest)))
        = ']' :: rest := by
      show skipWs (nlIndent ind2 ++ (']' :: rest)) = _
      rw [skipWs_nlIndent, skipWs_not_ws _ (by decide)]
    simp only [parseArrTail, hsk]
    simp
  | cons x xs ih =>
    intro ind ind2 fuel rest hf hr
    have hx1 : 1 ≤ sizeJ x := sizeJ_pos x
    simp only [sizeListJ] at hf
    obtain ⟨f, rfl⟩ : ∃ f, fuel = f + 1 := ⟨fuel - 1, by omega⟩
    have hsk : skipWs (renderArrTail ind (x :: xs) ++ (nlIndent ind2 ++ (']' :: rest)))
        = ',' :: (nlIndent ind ++ (render ind x
            ++ (renderArrTail ind xs ++ (nlIndent ind2 ++ (']' :: rest))))) := by
      show skipWs (',' :: _) = _
      rw [skipWs_not_ws _ (by decide)]
      simp [renderArrTail, List.append_assoc]
    have c1 : (',' = ']') = False := by decide
    simp only [parseArrTail, hsk, c1, if_false, eq_self_iff_true, if_true]
    have hval : parseValue f (nlIndent ind ++ (render ind x
          ++ (renderArrTail ind xs ++ (nlIndent ind2 ++ (']' :: rest)))))
        = some (x, renderArrTail ind xs ++ (nlIndent ind2 ++ (']' :: rest))) := by
      rw [parseValue_congr f (skipWs_nlIndent ind _)]
      exact IH x (by simp) ind f _ (by omega) (noDigitHead_arrTail _ _ _ _)
    rw [hval]
    simp [ih (fun y hy => IH y (by simp [hy])) ind ind2 f rest (by omega) hr]

theorem skipWs_space (z : List Char) : skipWs (' ' :: z) = skipWs z := by
  simp [skipWs, isWsChar]

theorem noDigitHead_objTail (ind ind2 : Nat) (ms : List (String × Json)) (w : List Char) :
    noDigitHead (renderObjTail ind ms ++ (nlIndent ind2 ++ w)) = true := by
  cases ms <;> rfl

theorem skipWs_member (ind ind2 : Nat) (k : String) (v : Json) (tail : List Char) :
    skipWs (nlIndent ind2 ++ (renderMember ind (k, v) ++ tail))
      = quoteC :: (escChars k.data ++ (quoteC :: (':' :: (' ' :: (render ind v ++ tail))))) := by
  rw [skipWs_nlIndent]
  show skipWs (quoteC :: _) = _
  rw [skipWs_not_ws _ (by decide)]
  simp [renderMember, renderStr, List.append_assoc]

theorem parseObjTail_round (ms : List (String × Json)) (IH : ∀ m ∈ ms, ParsesTo m.2) :
    ∀ ind ind2 fuel rest, sizeMembersJ ms + 1 ≤ fuel → noDigitHead rest = true →
      parseObjTail fuel (renderObjTail ind ms ++ (nlIndent ind2 ++ (rbraceC :: rest)))
        = some (ms, rest) := by
  induction ms with
  | nil =>
    intro ind ind2 fuel rest hf hr
    obtain ⟨f, rfl⟩ : ∃ f, fuel = f + 1 := ⟨fuel - 1, by omega⟩
    have hsk : skipWs (renderObjTail ind [] ++ (nlIndent ind2 ++ (rbraceC :: rest)))
        = rbraceC :: rest := by
      show skipWs (nlIndent ind2 ++ (rbraceC :: rest)) = _
      rw [skipWs_nlIndent, skipWs_not_ws _ (by decide)]
    simp only [parseObjTail, hsk]
    simp
  | cons m ms ih =>
    obtain ⟨k, v⟩ := m
    intro ind ind2 fuel rest hf hr
    have hx1 : 1 ≤ sizeJ v := sizeJ_pos v
    simp only [sizeMembersJ] at hf
    obtain ⟨f, rfl⟩ : ∃ f, fuel = f + 1 := ⟨fuel - 1, by omega⟩
    have hsk : skipWs (renderObjTail ind ((k, v) :: ms) ++ (nlIndent ind2 ++ (rbraceC :: rest)))
        = ',' :: (nlIndent ind ++ (renderMember ind (k, v)
            ++ (renderObjTail ind ms ++ (nlIndent ind2 ++ (rbraceC :: rest))))) := by
      show skipWs (',' :: _) = _
      rw [skipWs_not_ws _ (by decide)]
      simp [renderObjTail, List.append_assoc]
    have c1 : (',' = rbraceC) = False := by decide
    have hsk2 : skipWs (':' :: (' ' :: (render ind v
        ++ (renderObjTail ind ms ++ (nlIndent ind2 ++ (rbraceC :: rest))))))
        = ':' :: (' ' :: (render ind v
            ++ (renderObjTail ind ms ++ (nlIndent ind2 ++ (rbraceC :: rest))))) :=
      skipWs_not_ws _ (by decide)
    have hval : parseValue f (' ' :: (render ind v
          ++ (renderObjTail ind ms ++ (nlIndent ind2 ++ (rbraceC :: rest)))))
        = some (v, renderObjTail ind ms ++ (nlIndent ind2 ++ (rbraceC :: rest))) := by
      rw [parseValue_congr f (skipWs_space _)]
      exact IH (k, v) (by simp) ind f _ (by show sizeJ v ≤ f; omega) (noDigitHead_objTail _ _ _ _)
    simp only [parseObjTail, hsk, c1, if_false, eq_self_iff_true, if_true]
    rw [skipWs_member]
    simp only [eq_self_iff_true, if_true, parseStrBody_escChars, hsk2, hval]
    simp [ih (fun y hy => IH y (by simp [hy])) ind ind2 f rest (by omega) hr,
      stringMk_data]

theorem parsesTo_of_size : ∀ n j, sizeJ j ≤ n → ParsesTo j := by
  intro n
  induction n using Nat.strong_induction_on with
  | _ n IHn =>
    intro j hj
    have IHc : ∀ x : Json, sizeJ x < sizeJ j → ParsesTo x := fun x hx =>
      IHn (sizeJ x) (by omega) x le_rfl
    cases j with
    | null =>
      intro ind fuel rest hf hr
      obtain ⟨f, rfl⟩ : ∃ f, fuel = f + 1 := ⟨fuel - 1, by simp [sizeJ] at hf; omega⟩
      have hsk : skipWs (render ind Json.null ++ rest) = 'n' :: ('u' :: 'l' :: 'l' :: rest) := by
        show skipWs ('n' :: _) = _
        rw [skipWs_not_ws _ (by decide)]
        rfl
      simp only [parseValue, hsk]
      simp +decide []
    | bool b =>
      cases b with
      | true =>
        intro ind fuel rest hf hr
        obtain ⟨f, rfl⟩ : ∃ f, fuel = f + 1 := ⟨fuel - 1, by simp [sizeJ] at hf; omega⟩
        have hsk : skipWs (render ind (Json.bool true) ++ rest)
            = 't' :: ('r' :: 'u' :: 'e' :: rest) := by
          show skipWs ('t' :: _) = _
          rw [skipWs_not_ws _ (by decide)]
          rfl
        simp only [parseValue, hsk]
        simp +decide []
      | false =>
        intro ind fuel rest hf hr
        obtain ⟨f, rfl⟩ : ∃ f, fuel = f + 1 := ⟨fuel - 1, by simp [sizeJ] at hf; omega⟩
        have hsk : skipWs (render ind (Json.bool false) ++ rest)
            = 'f' :: ('a' :: 'l' :: 's' :: 'e' :: rest) := by
          show skipWs ('f' :: _) = _
          rw [skipWs_not_ws _ (by decide)]
          rfl
        simp only [parseValue, hsk]
        simp +decide []
    | num n =>
      intro ind fuel rest hf hr
      obtain ⟨f, rfl⟩ : ∃ f, fuel = f + 1 := ⟨fuel - 1, by simp [sizeJ] at hf; omega⟩
      obtain ⟨d, ds, hds, hd⟩ := renderInt_head n
      have hrender : render ind (Json.num n) = d :: ds := by simp [render, hds]
      have hdf : ¬(d = lbraceC) ∧ ¬(d = '[') ∧ ¬(d = quoteC) ∧ ¬(d = 'n') ∧ ¬(d = 't')
          ∧ ¬(d = 'f') ∧ ¬(d = ']') ∧ isWsChar d = false := by
        rcases hd with rfl | hd
        · exact ⟨by decide, by decide, by decide, by decide, by decide, by decide,
            by decide, by decide⟩
        · exact isDigitC_head_facts d hd
      have hsk : skipWs (render ind (Json.num n) ++ rest) = d :: (ds ++ rest) := by
        rw [hrender, List.cons_append, skipWs_not_ws _ hdf.2.2.2.2.2.2.2]
      simp only [parseValue, hsk]
      rw [if_neg hdf.1, if_neg hdf.2.1, if_neg hdf.2.2.1, if_neg hdf.2.2.2.1,
        if_neg hdf.2.2.2.2.1, if_neg hdf.2.2.2.2.2.1]
      rw [← List.cons_append, ← hds]
      exact parseNumber_renderInt n rest hr
    | str s =>
      intro ind fuel rest hf hr
      obtain ⟨f, rfl⟩ : ∃ f, fuel = f + 1 := ⟨fuel - 1, by simp [sizeJ] at hf; omega⟩
      have hsk : skipWs (render ind (Json.str s) ++ rest)
          = quoteC :: (escChars s.data ++ quoteC :: rest) := by
        show skipWs (quoteC :: _) = _
        rw [skipWs_not_ws _ (by decide)]
        simp [render, renderStr, List.append_assoc]
      simp only [parseValue, hsk]
      rw [if_pos trivial, parseStrBody_escChars]
      simp [stringMk_data]
      rw [if_neg (by decide), if_neg (by decide)]
    | arr xs =>
      have IHxs : ∀ x ∈ xs, ParsesTo x := by
        intro x hx
        refine IHc x ?_
        have := sizeListJ_of_mem hx
        simp [sizeJ]; omega
      intro ind fuel rest hf hr
      simp only [sizeJ] at hf
      obtain ⟨f, rfl⟩ : ∃ f, fuel = f + 1 := ⟨fuel - 1, by omega⟩
      cases xs with
      | nil =>
        have hsk : skipWs (render ind (Json.arr []) ++ rest) = '[' :: (']' :: rest) := by
          show skipWs ('[' :: (']' :: rest)) = _
          exact skipWs_not_ws _ (by decide)
        have c1 : ('[' = lbraceC) = False := by decide
        simp only [parseValue, hsk, c1, if_false, eq_self_iff_true, if_true]
        obtain ⟨g, rfl⟩ : ∃ g, f = g + 1 := ⟨f - 1, by simp [sizeListJ] at hf; omega⟩
        have hsk2 : skipWs (']' :: rest) = ']' :: rest := skipWs_not_ws _ (by decide)
        simp only [parseArrBody, hsk2]
        simp
      | cons x xs =>
        have hx1 : 1 ≤ sizeJ x := sizeJ_pos x
        simp only [sizeListJ] at hf
        have hsk : skipWs (render ind (Json.arr (x :: xs)) ++ rest)
            = '[' :: (nlIndent (ind + 2) ++ (render (ind + 2) x
                ++ (renderArrTail (ind + 2) xs ++ (nlIndent ind ++ (']' :: rest))))) := by
          show skipWs ('[' :: _) = _
          rw [skipWs_not_ws _ (by decide)]
          simp [List.append_assoc]
        have c1 : ('[' = lbraceC) = False := by decide
        simp only [parseValue, hsk, c1, if_false, eq_self_iff_true, if_true]
        obtain ⟨g, rfl⟩ : ∃ g, f = g + 1 := ⟨f - 1, by omega⟩
        obtain ⟨c, cs, hc, hcw, hcb⟩ := render_head (ind + 2) x
        have hsk2 : skipWs (nlIndent (ind + 2) ++ (render (ind + 2) x
            ++ (renderArrTail (ind + 2) xs ++ (nlIndent ind ++ (']' :: rest)))))
            = c :: (cs ++ (renderArrTail (ind + 2) xs ++ (nlIndent ind ++ (']' :: rest)))) := by
          rw [skipWs_nlIndent, hc, List.cons_append, skipWs_not_ws _ hcw]
        simp only [parseArrBody, hsk2]
        rw [if_neg hcb]
        have hval : parseValue g (c :: (cs
              ++ (renderArrTail (ind + 2) xs ++ (nlIndent ind ++ (']' :: rest)))))
            = some (x, renderArrTail (ind + 2) xs ++ (nlIndent ind ++ (']' :: rest))) := by
          rw [← List.cons_append, ← hc]
          exact IHxs x (by simp) (ind + 2) g _ (by omega) (noDigitHead_arrTail _ _ _ _)
        rw [hval]
        simp [parseArrTail_round xs (fun y hy => IHxs y (by simp [hy]))
          (ind + 2) ind g rest (by omega) hr]
    | obj ms =>
      have IHms : ∀ m ∈ ms, ParsesTo m.2 := by
        intro m hm
        refine IHc m.2 ?_
        have := sizeMembersJ_of_mem hm
        simp [sizeJ]; omega
      intro ind fuel rest hf hr
      simp only [sizeJ] at hf
      obtain ⟨f, rfl⟩ : ∃ f, fuel = f + 1 := ⟨fuel - 1, by omega⟩
      cases ms with
      | nil =>
        have hsk : skipWs (render ind (Json.obj []) ++ rest)
            = lbraceC :: (rbraceC :: rest) := by
          show skipWs (lbraceC :: (rbraceC :: rest)) = _
          exact skipWs_not_ws _ (by decide)
        simp only [parseValue, hsk, eq_self_iff_true, if_true]
        obtain ⟨g, rfl⟩ : ∃ g, f = g + 1 := ⟨f - 1, by simp [sizeMembersJ] at hf; omega⟩
        have hsk2 : skipWs (rbraceC :: rest) = rbraceC :: rest := skipWs_not_ws _ (by decide)
        simp only [parseObjBody, hsk2]
        simp
      | cons m ms =>
        obtain ⟨k, v⟩ := m
        have hx1 : 1 ≤ sizeJ v := sizeJ_pos v
        simp only [sizeMembersJ] at hf
        have hsk : skipWs (render ind (Json.obj ((k, v) :: ms)) ++ rest)
            = lbraceC :: (nlIndent (ind + 2) ++ (renderMember (ind + 2) (k, v)
                ++ (renderObjTail (ind + 2) ms ++ (nlIndent ind ++ (rbraceC :: rest))))) := by
          show skipWs (lbraceC :: _) = _
          rw [skipWs_not_ws _ (by decide)]
          simp [List.append_assoc]
        simp only [parseValue, hsk, eq_self_iff_true, if_true]
        obtain ⟨g, rfl⟩ : ∃ g, f = g + 1 := ⟨f - 1, by omega⟩
        have hsk2 : skipWs (':' :: (' ' :: (render (ind + 2) v
            ++ (renderObjTail (ind + 2) ms ++ (nlIndent ind ++ (rbraceC :: rest))))))
            = ':' :: (' ' :: (render (ind + 2) v
                ++ (renderObjTail (ind + 2) ms ++ (nlIndent ind ++ (rbraceC :: rest))))) :=
          skipWs_not_ws _ (by decide)
        have hval : parseValue g (' ' :: (render (ind + 2) v
              ++ (renderObjTail (ind + 2) ms ++ (nlIndent ind ++ (rbraceC :: rest)))))
            = some (v, renderObjTail (ind + 2) ms ++ (nlIndent ind ++ (rbraceC :: rest))) := by
          rw [parseValue_congr g (skipWs_space _)]
          exact IHms (k, v) (by simp) (ind + 2) g _ (by show sizeJ v ≤ g; omega)
            (noDigitHead_objTail _ _ _ _)
        simp only [parseObjBody]
        rw [skipWs_member]
        have c2 : (quoteC = rbraceC) = False := by decide
        simp only [c2, if_false, eq_self_iff_true, if_true, parseStrBody_escChars,
          hsk2, hval]
        simp [parseObjTail_round ms (fun y hy => IHms y (by simp [hy]))
          (ind + 2) ind g rest (by omega) hr, stringMk_data]

theorem sizeListJ_le_renderArrTail (ind : Nat) (xs : List Json)
    (H : ∀ x ∈ xs, ∀ ind, sizeJ x ≤ (render ind x).length) :
    sizeListJ xs ≤ (renderArrTail ind xs).length := by
  induction xs with
  | nil => simp [sizeListJ, renderArrTail]
  | cons x xs ih =>
    have h1 := H x (by simp) ind
    have h2 := ih (fun y hy ind => H y (by simp [hy]) ind)
    simp [sizeListJ, renderArrTail, nlIndent]
    omega

theorem sizeMembersJ_le_renderObjTail (ind : Nat) (ms : List (String × Json))
    (H : ∀ m ∈ ms, ∀ ind, sizeJ m.2 ≤ (render ind m.2).length) :
    sizeMembersJ ms ≤ (renderObjTail ind ms).length := by
  induction ms with
  | nil => simp [sizeMembersJ, renderObjTail]
  | cons m ms ih =>
    have h1 := H m (by simp) ind
    have h2 := ih (fun y hy ind => H y (by simp [hy]) ind)
    simp [sizeMembersJ, renderObjTail, renderMember, renderStr, nlIndent]
    omega

theorem sizeJ_le_renderLen : ∀ n j, sizeJ j ≤ n → ∀ ind, sizeJ j ≤ (render ind j).length := by
  intro n
  induction n using Nat.strong_induction_on with
  | _ n IHn =>
    intro j hj ind
    have IHc : ∀ x : Json, sizeJ x < sizeJ j → ∀ ind, sizeJ x ≤ (render ind x).length :=
      fun x hx => IHn (sizeJ x) (by omega) x le_rfl
    cases j with
    | null => simp [render, sizeJ]
    | bool b => cases b <;> simp [render, sizeJ]
    | num m =>
      have : renderInt m ≠ [] := by
        rw [renderInt]
        split_ifs
        · simp
        · exact natChars_ne_nil _
      have := List.length_pos.mpr this
      simp [render, sizeJ]
      omega
    | str s => simp [render, renderStr, sizeJ]
    | arr xs =>
      cases xs with
      | nil => simp [render, sizeJ, sizeListJ]
      | cons x xs =>
        have hx := IHc x (by simp [sizeJ, sizeListJ]; omega) (ind + 2)
        have hxs := sizeListJ_le_renderArrTail (ind + 2) xs
          (fun y hy ind => IHc y (by have := sizeListJ_of_mem hy; simp [sizeJ, sizeListJ]; omega) ind)
        simp [render, sizeJ, sizeListJ, nlIndent]
        omega
    | obj ms =>
      cases ms with
      | nil => simp [render, sizeJ, sizeMembersJ]
      | cons m ms =>
        have hx := IHc m.2 (by simp [sizeJ, sizeMembersJ]; omega) (ind + 2)
        have hxs := sizeMembersJ_le_renderObjTail (ind + 2) ms
          (fun y hy ind => IHc y.2 (by have := sizeMembersJ_of_mem hy; simp [sizeJ, sizeMembersJ]; omega) ind)
        obtain ⟨k, v⟩ := m
        simp [render, sizeJ, sizeMembersJ, renderMember, renderStr, nlIndent] at *
        omega

/-- The parser inverts the serializer: the round-trip property of
`json.loads` over `json.dumps`. -/
theorem loads_dumps (j : Json) : loads (dumps j) = some j := by
  unfold loads dumps
  have hlen := sizeJ_le_renderLen (sizeJ j) j le_rfl 0
  have hp : parseValue ((render 0 j ++ ['\n']).length + 1) (render 0 j ++ ['\n'])
      = some (j, ['\n']) := by
    apply parsesTo_of_size (sizeJ j) j le_rfl 0 _ ['\n'] ?_ (by decide)
    simp
    omega
  rw [hp]
  rfl

theorem dumps_injective {a b : Json} (h : dumps a = dumps b) : a = b := by
  have h2 : some a = some b := by rw [← loads_dumps a, ← loads_dumps b, h]
  simpa using h2

instance : DecidableEq Json := fun a b =>
  decidable_of_iff (dumps a = dumps b) ⟨dumps_injective, fun h => by rw [h]⟩

/-! ## Filesystem model

Paths are lists of components from the filesystem root.  `pathJoin`
follows `pathlib`'s joining rules (empty and `.` segments vanish, an
absolute argument replaces the base, `..` is kept literally), and
`resolvePath` is the OS-level resolution of `.` and `..` performed when a
path is actually accessed. -/

/-- An absolute path, as its list of components. -/
abbrev FsPath := List String

/-- `FsPath.home()`, fixed to a representative user. -/
def HOME : FsPath := ["home", "user"]

/-- OS-level resolution of `.` and `..` components. -/
def resolvePath (p : FsPath) : FsPath :=
  p.foldl (fun acc c =>
    if c = "." then acc
    else if c = ".." then acc.dropLast
    else acc ++ [c]) []

/-- Split a character list at every `/`, the way `pathlib` scans a path
string into segments. -/
def splitSlash : List Char → List (List Char)
  | [] => [[]]
  | c :: cs =>
    if c = '/' then [] :: splitSlash cs
    else
      match splitSlash cs with
      | p :: ps => (c :: p) :: ps
      | [] => [[c]]

/-- `pathlib` joining of one string argument onto a base path: empty and
`.` segments vanish, an argument beginning with `/` is absolute and
replaces the base, `..` segments are kept literally. -/
def pathJoin (base : FsPath) (name : String) : FsPath :=
  let parts := ((splitSlash name.data).map String.mk).filter (fun s => !(s == "") && !(s == "."))
  match name.data with
  | '/' :: _ => parts
  | _ => base ++ parts

/-- A filesystem: file contents and a set of directories. -/
structure FS where
  files : List (FsPath × List Char)
  dirs : List FsPath
deriving DecidableEq, Repr

namespace FS

/-- File content stored at an already-resolved path. -/
def rawRead (fs : FS) (q : FsPath) : Option (List Char) :=
  (fs.files.find? (fun e => e.1 == q)).map (fun e => e.2)

/-- File content at a path, after OS resolution. -/
def readFile (fs : FS) (p : FsPath) : Option (List Char) :=
  fs.rawRead (resolvePath p)

/-- `path.is_dir()`. -/
def isDir (fs : FS) (p : FsPath) : Bool := fs.dirs.contains (resolvePath p)

/-- `path.exists()`: a file or a directory is present. -/
def pathExists (fs : FS) (p : FsPath) : Bool := (fs.readFile p).isSome || fs.isDir p

/-- `path.mkdir(parents=True, exist_ok=True)`: creates the directory and
all ancestors; fails (`none`) when a file occupies the path or one of its
ancestors. -/
def mkdirs (fs : FS) (p : FsPath) : Option FS :=
  let np := resolvePath p
  if (np.inits.filter (fun q => !q.isEmpty)).any (fun q => (fs.rawRead q).isSome) then none
  else some { fs with dirs := np.inits ++ fs.dirs }

/-- `path.write_text(...)`: store content at the resolved path. -/
def writeFile (fs : FS) (p : FsPath) (c : List Char) : FS :=
  let np := resolvePath p
  { fs with files := (np, c) :: fs.files.filter (fun e => !(e.1 == np)) }

/-- `shutil.rmtree`: remove the directory and everything below it. -/
def rmtree (fs : FS) (p : FsPath) : FS :=
  let np := resolvePath p
  { files := fs.files.filter (fun e => !(np.isPrefixOf e.1)),
    dirs := fs.dirs.filter (fun q => !(np.isPrefixOf q)) }

/-- Every stored path, file or directory. -/
def allPaths (fs : FS) : List FsPath := fs.files.map (fun e => e.1) ++ fs.dirs

end FS

/-- The error taxonomy of the storage layer: `ValueError` on a bad set
name (InvalidArgument), `FileNotFoundError` (NotFound), and the other
`OSError`s the operations can raise. -/
inductive IOErr where
  | invalidArg
  | notFound
  | fileExists
  | isADir
  | sameFile
  | parseError
deriving DecidableEq, Repr

/-- `OPENCODE_DIR = FsPath.home() / ".config" / "opencode"`. -/
def OPENCODE_DIR : FsPath := HOME ++ [".config", "opencode"]

/-- `ACTIVE_CONFIG = OPENCODE_DIR / "config.json"`. -/
def ACTIVE_CONFIG : FsPath := OPENCODE_DIR ++ ["config.json"]

/-- `ACTIVE_OH_MY = OPENCODE_DIR / "oh-my-opencode.json"`. -/
def ACTIVE_OH_MY : FsPath := OPENCODE_DIR ++ ["oh-my-opencode.json"]

/-- `_read_json`: empty object when the file is absent, a parse of its
content otherwise; reading a directory raises. -/
def read_json (fs : FS) (p : FsPath) : Except IOErr Json :=
  match fs.readFile p with
  | some content =>
    match loads content with
    | some j => .ok j
    | none => .error .parseError
  | none =>
    if fs.isDir p then .error .isADir
    else .ok (.obj [])

/-- `_write_json`: ensure the parent directory, then write the
pretty-printed JSON.  The returned flag is the raised exception, if any;
the returned state reflects everything done before the raise. -/
def write_json (fs : FS) (p : FsPath) (d : Json) : FS × Option IOErr :=
  match fs.mkdirs p.dropLast with
  | none => (fs, some .fileExists)
  | some fs1 =>
    if fs1.isDir p then (fs1, some .isADir)
    else (fs1.writeFile p (dumps d), none)

/-- `read_active_opencode`. -/
def read_active_opencode (fs : FS) : Except IOErr Json := read_json fs ACTIVE_CONFIG

/-- `read_active_oh_my_opencode`. -/
def read_active_oh_my_opencode (fs : FS) : Except IOErr Json := read_json fs ACTIVE_OH_MY

/-- `write_active_opencode`. -/
def write_active_opencode (fs : FS) (d : Json) : FS × Option IOErr :=
  write_json fs ACTIVE_CONFIG d

/-- `write_active_oh_my_opencode`. -/
def write_active_oh_my_opencode (fs : FS) (d : Json) : FS × Option IOErr :=
  write_json fs ACTIVE_OH_MY d

/-- The `ConfigSet` metadata model. -/
structure ConfigSet where
  name : String
  has_opencode : Bool := false
  has_oh_my_opencode : Bool := false
deriving DecidableEq, Repr

/-- Code-point lexicographic comparison of character lists, the order in
which Python compares strings. -/
def strLtb : List Char → List Char → Bool
  | x :: xs, y :: ys =>
    if x.toNat < y.toNat then true
    else if y.toNat < x.toNat then false
    else strLtb xs ys
  | [], [] => false
  | [], _ :: _ => true
  | _ :: _, [] => false

/-- Boolean `≤` on strings. -/
def strLeb (a b : String) : Bool := !(strLtb b.data a.data)

/-- The name under `d` through which the stored path `q` is reachable. -/
def childName (d : FsPath) (q : FsPath) : Option String :=
  if d.isPrefixOf q then
    match q.drop d.length with
    | c :: _ => some c
    | [] => none
  else none

/-- `sorted(dir.iterdir())`: the distinct entry names directly under a
directory, in name order. -/
def FS.childNames (fs : FS) (d : FsPath) : List String :=
  ((fs.allPaths.filterMap (childName d)).dedup).insertionSort (fun a b => strLeb a b = true)

/-- `list_sets`. -/
def list_sets (fs : FS) : (FS × Option IOErr) × List ConfigSet :=
  match fs.mkdirs OPENCODE_DIR with
  | none => ((fs, some .fileExists), [])
  | some fs1 =>
    let names := fs1.childNames OPENCODE_DIR
    let sets := names.filterMap (fun n =>
      if fs1.isDir (OPENCODE_DIR ++ [n]) then
        let hasC := fs1.pathExists (OPENCODE_DIR ++ [n, "config.json"])
        let hasO := fs1.pathExists (OPENCODE_DIR ++ [n, "oh-my-opencode.json"])
        if hasC || hasO then some ⟨n, hasC, hasO⟩ else none
      else none)
    ((fs1, none), sets)

/-- `save_set`. -/
def save_set (fs : FS) (name : String) (A B : Json) : FS × Option IOErr :=
  if name.data.contains '/' || name.data.contains backslashC || name == "." || name == ".." then
    (fs, some .invalidArg)
  else
    let setDir := pathJoin OPENCODE_DIR name
    match fs.mkdirs setDir with
    | none => (fs, some .fileExists)
    | some fs1 =>
      match write_json fs1 (setDir ++ ["config.json"]) A with
      | (fs2, some e) => (fs2, some e)
      | (fs2, none) => write_json fs2 (setDir ++ ["oh-my-opencode.json"]) B

/-- `load_set`. -/
def load_set (fs : FS) (name : String) : FS × Except IOErr (Json × Json) :=
  let setDir := pathJoin OPENCODE_DIR name
  if !(fs.isDir setDir) then (fs, .error .notFound)
  else
    match read_json fs (setDir ++ ["config.json"]) with
    | .error e => (fs, .error e)
    | .ok a =>
      match read_json fs (setDir ++ ["oh-my-opencode.json"]) with
      | .error e => (fs, .error e)
      | .ok b => (fs, .ok (a, b))

/-- Final component of a path. -/
def lastComponent (p : FsPath) : String := p.getLast?.getD ""

/-- `shutil.copy2(src, dst)`: copies file content; copies *into* `dst`
when `dst` is a directory; raises `SameFileError` when source and
destination resolve to the same file, `IsADirectoryError` when the source
is a directory, `FileNotFoundError` when it is absent. -/
def copy2 (fs : FS) (src dst : FsPath) : FS × Option IOErr :=
  match fs.readFile src with
  | none => (fs, some (if fs.isDir src then .isADir else .notFound))
  | some content =>
    let dst' := if fs.isDir dst then dst ++ [lastComponent src] else dst
    if resolvePath src = resolvePath dst' then (fs, some .sameFile)
    else (fs.writeFile dst' content, none)

/-- `apply_set`. -/
def apply_set (fs : FS) (name : String) : FS × Option IOErr :=
  let setDir := pathJoin OPENCODE_DIR name
  if !(fs.isDir setDir) then (fs, some .notFound)
  else
    match fs.mkdirs OPENCODE_DIR with
    | none => (fs, some .fileExists)
    | some fs1 =>
      let srcC := setDir ++ ["config.json"]
      let srcO := setDir ++ ["oh-my-opencode.json"]
      match (if fs1.pathExists srcC then copy2 fs1 srcC ACTIVE_CONFIG else (fs1, none)) with
      | (fs2, some e) => (fs2, some e)
      | (fs2, none) =>
        if fs2.pathExists srcO then copy2 fs2 srcO ACTIVE_OH_MY else (fs2, none)

/-- `delete_set`. -/
def delete_set (fs : FS) (name : String) : FS × Option IOErr :=
  let setDir := pathJoin OPENCODE_DIR name
  if !(fs.isDir setDir) then (fs, some .notFound)
  else (fs.rmtree setDir, none)

/-! ## Model discovery (`server.py` / `models.py`) -/

/-- `ModelEntry` from `models.py`. -/
structure ModelEntry where
  options : Json := .obj []
  limit : Option Json := none
deriving DecidableEq, Repr

/-- `DiscoveredModel` from `models.py`: `enabled` defaults to `False` and
`existing_entry` to `None`. -/
structure DiscoveredModel where
  id : String
  enabled : Bool := false
  existing_entry : Option ModelEntry := none
deriving DecidableEq, Repr

/-- What the upstream interaction produced: a network-level failure
(`httpx.RequestError`) or an HTTP response with status and parsed body. -/
inductive UpstreamResult where
  | netFailure
  | response (status : Nat) (body : Json)

/-- The failures `fetch_provider_models` signals: the three 502 variants,
plus the pydantic validation failure on a kept non-string id. -/
inductive UpstreamErr where
  | unreachable
  | upstreamError (status : Nat)
  | badFormat
  | validation
deriving DecidableEq, Repr

/-- `data.get("data", data) if isinstance(data, dict) else data`. -/
def rawModels (body : Json) : Json :=
  match body with
  | .obj ms => (Json.lookup "data" ms).getD (.obj ms)
  | _ => body

/-- One step of the comprehension
`[DiscoveredModel(id=m.get("id", str(m))) for m in raw_models
  if isinstance(m, dict) and m.get("id")]`:
`none` when the item is filtered out, an error when pydantic rejects the
kept id, the constructed model otherwise. -/
def discoverItem (m : Json) : Option (Except UpstreamErr DiscoveredModel) :=
  match m with
  | .obj ms =>
    match Json.lookup "id" ms with
    | some v =>
      if v.truthy then
        some (match v with
          | .str s => .ok ⟨s, false, none⟩
          | _ => .error .validation)
      else none
    | none => none
  | _ => none

/-- The whole comprehension, left to right, stopping at the first
validation failure as Python does. -/
def buildModels : List Json → Except UpstreamErr (List DiscoveredModel)
  | [] => .ok []
  | m :: ms =>
    match discoverItem m with
    | none => buildModels ms
    | some (.error e) => .error e
    | some (.ok d) => (buildModels ms).map (fun ds => d :: ds)

/-- `fetch_provider_models`: `raise_for_status` turns any non-2xx status
into a 502 carrying the remote status; a request error becomes the
distinct unreachable 502; then the body is shaped. -/
def fetch_provider_models (r : UpstreamResult) : Except UpstreamErr (List DiscoveredModel) :=
  match r with
  | .netFailure => .error .unreachable
  | .response status body =>
    if status < 200 || 300 ≤ status then .error (.upstreamError status)
    else
      match rawModels body with
      | .arr ms => buildModels ms
      | _ => .error .badFormat

/-- True when pydantic cannot reject the item: any kept `id` (a truthy
one on a dict item) is a string. -/
def idOkB (e : Json) : Bool :=
  match e with
  | .obj ms =>
    match Json.lookup "id" ms with
    | some v =>
      !v.truthy || (match v with | .str _ => true | _ => false)
    | none => true
  | _ => true

/-- The id the comprehension keeps for an item, when it keeps one. -/
def keptId (e : Json) : Option String :=
  match e with
  | .obj ms =>
    match Json.lookup "id" ms with
    | some (.str s) => if s = "" then none else some s
    | _ => none
  | _ => none

/-- Modelled from the spec: §8's description of extraction — the `id` of
each object in the list, with objects lacking an `id` dropped. -/
def specModelIds (ms : List Json) : List Json :=
  ms.filterMap (fun m =>
    match m with
    | .obj kvs => Json.lookup "id" kvs
    | _ => none)

/-! ## Facts about the filesystem model -/

theorem splitSlash_no_slash (cs : List Char) (h : cs.contains '/' = false) :
    splitSlash cs = [cs] := by
  induction cs with
  | nil => rfl
  | cons c cs ih =>
    simp only [List.contains_cons, Bool.or_eq_false_iff, beq_eq_false_iff_ne] at h
    rw [splitSlash, if_neg (fun e => h.1 e.symm), ih h.2]

theorem pathJoin_single (base : FsPath) (name : String)
    (hsep : name.data.contains '/' = false) (hne : ¬(name = "")) (hdot : ¬(name = ".")) :
    pathJoin base name = base ++ [name] := by
  unfold pathJoin
  rw [splitSlash_no_slash _ hsep]
  split
  · next heq =>
    exfalso
    rw [heq] at hsep
    simp [List.contains_cons] at hsep
  · simp [stringMk_data, List.filter_cons, hne, hdot]

theorem pathJoin_empty (base : FsPath) : pathJoin base "" = base := by
  unfold pathJoin
  simp [splitSlash]

theorem resolvePath_append_one (p : FsPath) (c : String)
    (h1 : ¬(c = ".")) (h2 : ¬(c = "..")) :
    resolvePath (p ++ [c]) = resolvePath p ++ [c] := by
  simp [resolvePath, List.foldl_append, h1, h2]

theorem resolvePath_opencode : resolvePath OPENCODE_DIR = OPENCODE_DIR := by decide

theorem resolvePath_active_config : resolvePath ACTIVE_CONFIG = ACTIVE_CONFIG := by decide

theorem resolvePath_active_oh_my : resolvePath ACTIVE_OH_MY = ACTIVE_OH_MY := by decide

theorem find?_filter_keep {α : Type} (l : List α) (pred keep : α → Bool)
    (h : ∀ e, pred e = true → keep e = true) :
    (l.filter keep).find? pred = l.find? pred := by
  induction l with
  | nil => rfl
  | cons e l ih =>
    cases hp : pred e with
    | true =>
      rw [List.filter_cons, h e hp]
      simp [List.find?_cons, hp]
    | false =>
      rw [List.filter_cons]
      cases hk : keep e with
      | true => simp [List.find?_cons, hp, ih]
      | false => simp [List.find?_cons, hp, ih]

theorem rawRead_writeFile (fs : FS) (p : FsPath) (c : List Char) (q : FsPath) :
    (fs.writeFile p c).rawRead q =
      if q = resolvePath p then some c else fs.rawRead q := by
  by_cases h : q = resolvePath p
  · simp [FS.writeFile, FS.rawRead, List.find?_cons, h]
  · have heq : (List.filter (fun e => !(e.1 == resolvePath p)) fs.files).find?
        (fun e => e.1 == q) = fs.files.find? (fun e => e.1 == q) := by
      apply find?_filter_keep
      intro e he
      simp only [beq_iff_eq] at he
      rw [he]
      simp [beq_eq_false_iff_ne]
      exact fun e2 => h e2
    have hne : ((resolvePath p, c).1 == q) = false := by
      simp [beq_eq_false_iff_ne]
      exact fun e => h e.symm
    simp [FS.writeFile, FS.rawRead, List.find?_cons, hne, heq, h]

theorem readFile_writeFile (fs : FS) (p : FsPath) (c : List Char) (q : FsPath) :
    (fs.writeFile p c).readFile q =
      if resolvePath q = resolvePath p then some c else fs.readFile q := by
  unfold FS.readFile
  exact rawRead_writeFile fs p c (resolvePath q)

theorem isDir_writeFile (fs : FS) (p : FsPath) (c : List Char) (q : FsPath) :
    (fs.writeFile p c).isDir q = fs.isDir q := rfl

theorem rawRead_of_writeFile_dirs (fs : FS) (p : FsPath) (c : List Char) :
    (fs.writeFile p c).dirs = fs.dirs := rfl

theorem mkdirs_eq_some {fs : FS} {p : FsPath} {fs' : FS} (h : fs.mkdirs p = some fs') :
    fs'.files = fs.files ∧ fs'.dirs = (resolvePath p).inits ++ fs.dirs := by
  simp only [FS.mkdirs] at h
  split at h
  · cases h
  · cases h
    exact ⟨rfl, rfl⟩

theorem mkdirs_some_of {fs : FS} {p : FsPath}
    (h : ∀ q, q <+: resolvePath p → ¬(q = []) → fs.rawRead q = none) :
    fs.mkdirs p = some ⟨fs.files, (resolvePath p).inits ++ fs.dirs⟩ := by
  unfold FS.mkdirs
  rw [if_neg]
  simp only [List.any_eq_true, List.mem_filter, List.mem_inits, not_exists]
  rintro q ⟨⟨hq, hne⟩, hsome⟩
  rw [h q hq (by simpa [List.isEmpty_iff] using hne)] at hsome
  simp at hsome

theorem contains_append_paths (l1 l2 : List FsPath) (a : FsPath) :
    (l1 ++ l2).contains a = (l1.contains a || l2.contains a) := by
  induction l1 with
  | nil => rfl
  | cons x l1 ih => simp [List.contains_cons, ih, Bool.or_assoc]

theorem contains_inits (l a : FsPath) : l.inits.contains a = decide (a <+: l) := by
  by_cases hc : a <+: l
  · rw [decide_eq_true hc]
    exact List.elem_iff.mpr ((List.mem_inits _ _).mpr hc)
  · rw [decide_eq_false hc]
    simp only [Bool.eq_false_iff]
    intro hcc
    exact hc ((List.mem_inits _ _).mp (List.elem_iff.mp hcc))

theorem isDir_of_dirs_append_inits (fls : List (FsPath × List Char))
    (ds : List FsPath) (np : FsPath) (q : FsPath) :
    FS.isDir ⟨fls, np.inits ++ ds⟩ q
      = (decide (resolvePath q <+: np) || FS.isDir ⟨fls, ds⟩ q) := by
  show (np.inits ++ ds).contains (resolvePath q)
    = (decide (resolvePath q <+: np) || ds.contains (resolvePath q))
  rw [contains_append_paths, contains_inits]

theorem readFile_rmtree (fs : FS) (p : FsPath) (q : FsPath) :
    (fs.rmtree p).readFile q =
      if resolvePath p <+: resolvePath q then none else fs.readFile q := by
  unfold FS.rmtree FS.readFile FS.rawRead
  by_cases h : resolvePath p <+: resolvePath q
  · rw [if_pos h]
    simp only
    have hall : ∀ l : List (FsPath × List Char),
        (l.filter (fun e => !((resolvePath p).isPrefixOf e.1))).find?
          (fun e => e.1 == resolvePath q) = none := by
      intro l
      induction l with
      | nil => rfl
      | cons e l ih =>
        rw [List.filter_cons]
        cases hk : !((resolvePath p).isPrefixOf e.1) with
        | false => simpa using ih
        | true =>
          rw [if_pos rfl, List.find?_cons]
          have hne : (e.1 == resolvePath q) = false := by
            simp only [Bool.not_eq_true'] at hk
            simp only [beq_eq_false_iff_ne]
            intro e2
            rw [e2] at hk
            exact absurd (List.isPrefixOf_iff_prefix.mpr h) (by simp [hk])
          simp [hne, ih]
    rw [hall]
    rfl
  · rw [if_neg h]
    simp only
    rw [find?_filter_keep]
    intro e he
    simp only [beq_iff_eq] at he
    rw [he]
    simp only [Bool.not_eq_eq_eq_not, Bool.not_true]
    cases hk : (resolvePath p).isPrefixOf (resolvePath q)
    · rfl
    · exact absurd (List.isPrefixOf_iff_prefix.mp hk) h

theorem isDir_rmtree (fs : FS) (p : FsPath) (q : FsPath) :
    (fs.rmtree p).isDir q =
      if resolvePath p <+: resolvePath q then false else fs.isDir q := by
  unfold FS.rmtree FS.isDir
  simp only
  by_cases h : resolvePath p <+: resolvePath q
  · rw [if_pos h]
    simp only [Bool.eq_false_iff]
    intro hc
    have hm := List.elem_iff.mp hc
    have hkept := (List.mem_filter.mp hm).2
    simp only [Bool.not_eq_true'] at hkept
    exact absurd (List.isPrefixOf_iff_prefix.mpr h) (by simp [hkept])
  · rw [if_neg h]
    cases hd : fs.dirs.contains (resolvePath q) with
    | true =>
      have hm := List.elem_iff.mp hd
      have hkeep : (!((resolvePath p).isPrefixOf (resolvePath q))) = true := by
        cases hk : (resolvePath p).isPrefixOf (resolvePath q)
        · rfl
        · exact absurd (List.isPrefixOf_iff_prefix.mp hk) h
      exact List.elem_iff.mpr (List.mem_filter.mpr ⟨hm, hkeep⟩)
    | false =>
      simp only [Bool.eq_false_iff] at hd ⊢
      intro hc
      exact hd (List.elem_iff.mpr (List.mem_filter.mp (List.elem_iff.mp hc)).1)

/-! ## Error-shape facts for the storage operations -/

theorem read_json_err {fs : FS} {p : FsPath} {e : IOErr}
    (h : read_json fs p = .error e) : e = .parseError ∨ e = .isADir := by
  unfold read_json at h
  split at h
  · split at h
    · cases h
    · cases h
      exact Or.inl rfl
  · split at h
    · cases h
      exact Or.inr rfl
    · cases h

theorem copy2_snd (fs : FS) (src dst : FsPath) :
    (copy2 fs src dst).2 = none ∨ (copy2 fs src dst).2 = some .isADir
      ∨ (copy2 fs src dst).2 = some .notFound ∨ (copy2 fs src dst).2 = some .sameFile := by
  unfold copy2
  rcases fs.readFile src with _ | content <;> simp only
  · split_ifs <;> simp
  · split_ifs <;> simp

theorem step_snd (b : Bool) (fs1 : FS) (src dst : FsPath) :
    ((if b = true then copy2 fs1 src dst else (fs1, none)).2 = none)
  ∨ ((if b = true then copy2 fs1 src dst else (fs1, none)).2 = some .isADir)
  ∨ ((if b = true then copy2 fs1 src dst else (fs1, none)).2 = some .notFound)
  ∨ ((if b = true then copy2 fs1 src dst else (fs1, none)).2 = some .sameFile) := by
  cases b with
  | false => simp
  | true => simpa using copy2_snd fs1 src dst

theorem apply_set_snd (fs : FS) (name : String) :
    (apply_set fs name).2 = none ∨ (apply_set fs name).2 = some .notFound
      ∨ (apply_set fs name).2 = some .fileExists ∨ (apply_set fs name).2 = some .isADir
      ∨ (apply_set fs name).2 = some .sameFile := by
  unfold apply_set
  by_cases hd : (!(fs.isDir (pathJoin OPENCODE_DIR name))) = true
  · rw [if_pos hd]
    simp
  · rw [if_neg hd]
    rcases hmk : fs.mkdirs OPENCODE_DIR with _ | fs1
    · simp
    · simp only
      rcases hstep : (if (FS.pathExists fs1 (pathJoin OPENCODE_DIR name ++ ["config.json"]))
          = true then copy2 fs1 (pathJoin OPENCODE_DIR name ++ ["config.json"]) ACTIVE_CONFIG
          else (fs1, none)) with ⟨fs2, oe⟩
      have hshape := step_snd (FS.pathExists fs1 (pathJoin OPENCODE_DIR name
        ++ ["config.json"])) fs1 (pathJoin OPENCODE_DIR name ++ ["config.json"]) ACTIVE_CONFIG
      simp only [hstep] at hshape
      cases oe with
      | some e =>
        simp only
        rcases hshape with h | h | h | h <;> simp_all
      | none =>
        simp only
        rcases hstep2 : (if (FS.pathExists fs2 (pathJoin OPENCODE_DIR name
            ++ ["oh-my-opencode.json"])) = true
            then copy2 fs2 (pathJoin OPENCODE_DIR name ++ ["oh-my-opencode.json"]) ACTIVE_OH_MY
            else (fs2, none)) with ⟨fs3, oe2⟩
        have hshape2 := step_snd (FS.pathExists fs2 (pathJoin OPENCODE_DIR name
            ++ ["oh-my-opencode.json"])) fs2
            (pathJoin OPENCODE_DIR name ++ ["oh-my-opencode.json"]) ACTIVE_OH_MY
        simp only [hstep2] at hshape2
        rcases hshape2 with h | h | h | h <;> simp_all

theorem load_set_snd (fs : FS) (name : String) :
    (load_set fs name).2 = .error .notFound ∨ (load_set fs name).2 = .error .parseError
      ∨ (load_set fs name).2 = .error .isADir ∨ ∃ ab, (load_set fs name).2 = .ok ab := by
  unfold load_set
  by_cases hd : (!(fs.isDir (pathJoin OPENCODE_DIR name))) = true
  · rw [if_pos hd]
    simp
  · rw [if_neg hd]
    rcases hr : read_json fs (pathJoin OPENCODE_DIR name ++ ["config.json"]) with e | a
    · rcases read_json_err hr with h | h <;> simp [h]
    · rcases hr2 : read_json fs (pathJoin OPENCODE_DIR name ++ ["oh-my-opencode.json"])
        with e | b
      · rcases read_json_err hr2 with h | h <;> simp [h]
      · simp

theorem delete_set_snd (fs : FS) (name : String) :
    (delete_set fs name).2 = none ∨ (delete_set fs name).2 = some .notFound := by
  unfold delete_set
  by_cases hd : (!(fs.isDir (pathJoin OPENCODE_DIR name))) = true
  · rw [if_pos hd]
    simp
  · rw [if_neg hd]
    simp

/-! ## The claims -/

/-- **C2.** For every name that equals `.`, `..`, or contains a
path-separator character (`/` or `\`), and for all config objects `A` and
`B`, `save_set` signals InvalidArgument (`ValueError`) and writes
nothing: the filesystem is returned exactly as it was, so no directory is
created and no file changes. -/
theorem save_set_rejects_invalid_names (fs : FS) (name : String) (A B : Json)
    (h : name.data.contains '/' = true ∨ name.data.contains backslashC = true
      ∨ name = "." ∨ name = "..") :
    save_set fs name A B = (fs, some .invalidArg) := by
  unfold save_set
  rcases h with h | h | h | h
  · rw [if_pos (by simp [List.elem_iff.mp h])]
  · rw [if_pos (by simp [List.elem_iff.mp h])]
  · rw [if_pos (by simp [h])]
  · rw [if_pos (by simp [h])]

/-- Witness for C2 at the concrete inputs `a/b`, `..` and `.`. -/
theorem save_set_rejects_invalid_names_witness :
    save_set ⟨[], []⟩ "a/b" (.obj []) (.obj []) = (⟨[], []⟩, some .invalidArg)
  ∧ save_set ⟨[], []⟩ ".." (.obj []) (.obj []) = (⟨[], []⟩, some .invalidArg)
  ∧ save_set ⟨[], []⟩ "." (.obj []) (.obj []) = (⟨[], []⟩, some .invalidArg) :=
  ⟨save_set_rejects_invalid_names _ _ _ _ (Or.inl (by decide)),
   save_set_rejects_invalid_names _ _ _ _ (Or.inr (Or.inr (Or.inr rfl))),
   save_set_rejects_invalid_names _ _ _ _ (Or.inr (Or.inr (Or.inl rfl)))⟩

/-- **C5.** For every set name whose directory does not exist, `load_set`,
`apply_set` and `delete_set` each signal NotFound and have no side
effects: the filesystem is returned exactly as it was. -/
theorem missing_set_not_found (fs : FS) (name : String)
    (h : fs.isDir (pathJoin OPENCODE_DIR name) = false) :
    load_set fs name = (fs, .error .notFound)
      ∧ apply_set fs name = (fs, some .notFound)
      ∧ delete_set fs name = (fs, some .notFound) := by
  refine ⟨?_, ?_, ?_⟩
  · unfold load_set
    rw [if_pos (by simp [h])]
  · unfold apply_set
    rw [if_pos (by simp [h])]
  · unfold delete_set
    rw [if_pos (by simp [h])]

/-- Witness for C5 at the empty filesystem and the name `missing`. -/
theorem missing_set_not_found_witness :
    load_set ⟨[], []⟩ "missing" = (⟨[], []⟩, .error .notFound)
      ∧ apply_set ⟨[], []⟩ "missing" = (⟨[], []⟩, some .notFound)
      ∧ delete_set ⟨[], []⟩ "missing" = (⟨[], []⟩, some .notFound) :=
  missing_set_not_found ⟨[], []⟩ "missing" (by decide)

/-- **C3.** `load_set`, `apply_set` and `delete_set` perform no name
validation: for every name — including `..`, `.` and names containing
path separators — they never signal InvalidArgument; the name is joined
directly onto the config root, so `..` resolves to the parent of the
config root, and when that parent directory exists, `delete_set ".."`
succeeds and recursively removes every file and directory at or below
the parent of the config root. -/
theorem no_name_validation_and_dotdot_deletes_parent :
    (∀ (fs : FS) (name : String),
        ¬((load_set fs name).2 = .error .invalidArg)
      ∧ ¬((apply_set fs name).2 = some .invalidArg)
      ∧ ¬((delete_set fs name).2 = some .invalidArg))
  ∧ resolvePath (pathJoin OPENCODE_DIR "..") = HOME ++ [".config"]
  ∧ (∀ fs : FS, fs.isDir (pathJoin OPENCODE_DIR "..") = true →
      (delete_set fs "..").2 = none
      ∧ (∀ q : FsPath, HOME ++ [".config"] <+: resolvePath q →
          (delete_set fs "..").1.readFile q = none
            ∧ (delete_set fs "..").1.isDir q = false)) := by
  refine ⟨?_, by decide, ?_⟩
  · intro fs name
    refine ⟨?_, ?_, ?_⟩
    · rcases load_set_snd fs name with h | h | h | ⟨ab, h⟩ <;> simp [h]
    · rcases apply_set_snd fs name with h | h | h | h | h <;> simp [h]
    · rcases delete_set_snd fs name with h | h <;> simp [h]
  · intro fs hdir
    have hsnd : delete_set fs ".." = (fs.rmtree (pathJoin OPENCODE_DIR ".."), none) := by
      unfold delete_set
      rw [if_neg (by simp [hdir])]
    have hrp : resolvePath (pathJoin OPENCODE_DIR "..") = HOME ++ [".config"] := by decide
    refine ⟨by rw [hsnd], ?_⟩
    intro q hq
    rw [hsnd]
    constructor
    · rw [readFile_rmtree, hrp, if_pos hq]
    · rw [isDir_rmtree, hrp, if_pos hq]

/-- Witness for C3: no validation error on `a/b`, and deleting `..` from
a filesystem whose `~/.config` exists removes that parent directory. -/
theorem no_name_validation_witness :
    ¬((delete_set ⟨[], []⟩ "a/b").2 = some .invalidArg)
  ∧ (delete_set ⟨[], [[], ["home"], ["home", "user"], ["home", "user", ".config"]]⟩
      "..").2 = none
  ∧ (delete_set ⟨[], [[], ["home"], ["home", "user"], ["home", "user", ".config"]]⟩
      "..").1.isDir ["home", "user", ".config"] = false :=
  ⟨(no_name_validation_and_dotdot_deletes_parent.1 ⟨[], []⟩ "a/b").2.2,
   (no_name_validation_and_dotdot_deletes_parent.2.2 _ (by decide)).1,
   ((no_name_validation_and_dotdot_deletes_parent.2.2 _ (by decide)).2
      ["home", "user", ".config"] (by decide)).2⟩

theorem write_json_ok (fs : FS) (p : FsPath) (d : Json)
    (hparent : ∀ q, q <+: resolvePath p.dropLast → ¬(q = []) → fs.rawRead q = none)
    (hnd : fs.isDir p = false)
    (hpfx : ¬(resolvePath p <+: resolvePath p.dropLast)) :
    write_json fs p d
      = ((⟨fs.files, (resolvePath p.dropLast).inits ++ fs.dirs⟩ : FS).writeFile
          p (dumps d), none) := by
  unfold write_json
  rw [mkdirs_some_of hparent]
  have hd2 : (⟨fs.files, (resolvePath p.dropLast).inits ++ fs.dirs⟩ : FS).isDir p = false := by
    rw [isDir_of_dirs_append_inits]
    simp only [Bool.or_eq_false_iff]
    constructor
    · simpa using hpfx
    · exact hnd
  simp [hd2]

theorem read_json_writeFile_self (fs : FS) (p : FsPath) (d : Json) :
    read_json (fs.writeFile p (dumps d)) p = .ok d := by
  unfold read_json
  rw [readFile_writeFile, if_pos rfl]
  simp [loads_dumps]

theorem read_json_writeFile_ne (fs : FS) (p : FsPath) (c : List Char) (q : FsPath)
    (h : ¬(resolvePath q = resolvePath p)) :
    read_json (fs.writeFile p c) q = read_json fs q := by
  unfold read_json
  rw [readFile_writeFile, if_neg h]
  rfl

theorem readFile_mk_files (X : FS) (D : List FsPath) (p : FsPath) :
    FS.readFile ⟨X.files, D⟩ p = X.readFile p := rfl

theorem read_json_mk_files (X : FS) (D : List FsPath) (p : FsPath) :
    read_json ⟨X.files, D⟩ p
      = (match X.readFile p with
        | some content =>
          match loads content with
          | some j => .ok j
          | none => .error .parseError
        | none =>
          if FS.isDir ⟨X.files, D⟩ p then .error .isADir
          else .ok (.obj [])) := rfl

/-- The filesystem produced by `save_set fs "" A B` in a benign state. -/
def emptySaveResult (fs : FS) (A B : Json) : FS :=
  (⟨((⟨fs.files, OPENCODE_DIR.inits ++ (OPENCODE_DIR.inits ++ fs.dirs)⟩ : FS).writeFile
        ACTIVE_CONFIG (dumps A)).files,
      OPENCODE_DIR.inits ++ ((⟨fs.files, OPENCODE_DIR.inits
        ++ (OPENCODE_DIR.inits ++ fs.dirs)⟩ : FS).writeFile
        ACTIVE_CONFIG (dumps A)).dirs⟩ : FS).writeFile ACTIVE_OH_MY (dumps B)

theorem save_set_empty_eq (fs : FS) (A B : Json)
    (hroot : ∀ q, q <+: OPENCODE_DIR → ¬(q = []) → fs.rawRead q = none)
    (hc : fs.isDir ACTIVE_CONFIG = false)
    (ho : fs.isDir ACTIVE_OH_MY = false) :
    save_set fs "" A B = (emptySaveResult fs A B, none) := by
  have hpj : pathJoin OPENCODE_DIR "" = OPENCODE_DIR := pathJoin_empty _
  have hdropC : ACTIVE_CONFIG.dropLast = OPENCODE_DIR := by decide
  have hdropO : ACTIVE_OH_MY.dropLast = OPENCODE_DIR := by decide
  have hmk1 : fs.mkdirs OPENCODE_DIR
      = some ⟨fs.files, OPENCODE_DIR.inits ++ fs.dirs⟩ := by
    have h0 := @mkdirs_some_of fs OPENCODE_DIR
      (by intro q hq hne; exact hroot q (by rwa [resolvePath_opencode] at hq) hne)
    rwa [resolvePath_opencode] at h0
  have hw1 : write_json (⟨fs.files, OPENCODE_DIR.inits ++ fs.dirs⟩ : FS) ACTIVE_CONFIG A
      = ((⟨fs.files, OPENCODE_DIR.inits ++ (OPENCODE_DIR.inits ++ fs.dirs)⟩ : FS).writeFile
          ACTIVE_CONFIG (dumps A), none) := by
    have h0 := write_json_ok (⟨fs.files, OPENCODE_DIR.inits ++ fs.dirs⟩ : FS) ACTIVE_CONFIG A
      (by intro q hq hne
          exact hroot q (by rwa [hdropC, resolvePath_opencode] at hq) hne)
      (by rw [show (⟨fs.files, OPENCODE_DIR.inits ++ fs.dirs⟩ : FS).isDir ACTIVE_CONFIG
            = _ from isDir_of_dirs_append_inits _ _ _ _]
          rw [resolvePath_active_config]
          simp only [Bool.or_eq_false_iff]
          exact ⟨by decide, hc⟩)
      (by rw [hdropC, resolvePath_active_config, resolvePath_opencode]; decide)
    rwa [hdropC, resolvePath_opencode] at h0
  have hw2 : write_json ((⟨fs.files, OPENCODE_DIR.inits
        ++ (OPENCODE_DIR.inits ++ fs.dirs)⟩ : FS).writeFile ACTIVE_CONFIG (dumps A))
        ACTIVE_OH_MY B
      = (emptySaveResult fs A B, none) := by
    have h0 := write_json_ok ((⟨fs.files, OPENCODE_DIR.inits
        ++ (OPENCODE_DIR.inits ++ fs.dirs)⟩ : FS).writeFile ACTIVE_CONFIG (dumps A))
        ACTIVE_OH_MY B
      (by intro q hq hne
          rw [hdropO, resolvePath_opencode] at hq
          rw [show FS.rawRead _ q = _ from rawRead_writeFile _ ACTIVE_CONFIG (dumps A) q]
          rw [if_neg ?_]
          · exact hroot q hq hne
          · intro e
            subst e
            rw [resolvePath_active_config] at hq
            have := hq.length_le
            simp [OPENCODE_DIR, ACTIVE_CONFIG, HOME] at this)
      (by rw [isDir_writeFile]
          rw [show (⟨fs.files, OPENCODE_DIR.inits ++ (OPENCODE_DIR.inits ++ fs.dirs)⟩ : FS).isDir
              ACTIVE_OH_MY = _ from isDir_of_dirs_append_inits _ _ _ _]
          rw [show FS.isDir ⟨fs.files, OPENCODE_DIR.inits ++ fs.dirs⟩ ACTIVE_OH_MY
              = _ from isDir_of_dirs_append_inits _ _ _ _]
          rw [resolvePath_active_oh_my]
          simp only [Bool.or_eq_false_iff]
          exact ⟨by decide, by decide, ho⟩)
      (by rw [hdropO, resolvePath_active_oh_my, resolvePath_opencode]; decide)
    rwa [hdropO, resolvePath_opencode] at h0
  unfold save_set
  rw [if_neg (by decide)]
  rw [hpj]
  show (match fs.mkdirs OPENCODE_DIR with
    | none => (fs, some IOErr.fileExists)
    | some fs1 =>
      match write_json fs1 (OPENCODE_DIR ++ ["config.json"]) A with
      | (fs2, some e) => (fs2, some e)
      | (fs2, none) => write_json fs2 (OPENCODE_DIR ++ ["oh-my-opencode.json"]) B) = _
  rw [hmk1]
  simp only
  rw [show (OPENCODE_DIR ++ ["config.json"]) = ACTIVE_CONFIG from rfl,
    show (OPENCODE_DIR ++ ["oh-my-opencode.json"]) = ACTIVE_OH_MY from rfl,
    hw1]
  show write_json ((⟨fs.files, OPENCODE_DIR.inits
      ++ (OPENCODE_DIR.inits ++ fs.dirs)⟩ : FS).writeFile ACTIVE_CONFIG (dumps A))
      ACTIVE_OH_MY B = _
  exact hw2

/-- **C10.** `save_set` with the empty string as name is not rejected:
the target directory resolves to the config root itself, and (from any
state where no file blocks the config-root ancestry and neither active
path is a directory) no error is signalled and the two files are written
at the active config paths, overwriting the active configuration pair
with `A` and `B`. -/
theorem save_set_empty_name (fs : FS) (A B : Json)
    (hroot : ∀ q, q <+: OPENCODE_DIR → ¬(q = []) → fs.rawRead q = none)
    (hc : fs.isDir ACTIVE_CONFIG = false)
    (ho : fs.isDir ACTIVE_OH_MY = false) :
    pathJoin OPENCODE_DIR "" = OPENCODE_DIR
  ∧ (save_set fs "" A B).2 = none
  ∧ read_active_opencode (save_set fs "" A B).1 = .ok A
  ∧ read_active_oh_my_opencode (save_set fs "" A B).1 = .ok B := by
  have hsave := save_set_empty_eq fs A B hroot hc ho
  refine ⟨pathJoin_empty _, by rw [hsave], ?_, ?_⟩
  · rw [hsave]
    show read_json _ ACTIVE_CONFIG = _
    unfold emptySaveResult
    rw [read_json_writeFile_ne _ _ _ _
      (by rw [resolvePath_active_config, resolvePath_active_oh_my]; decide)]
    rw [read_json_mk_files]
    rw [readFile_writeFile, if_pos rfl]
    simp [loads_dumps]
  · rw [hsave]
    show read_json _ ACTIVE_OH_MY = _
    unfold emptySaveResult
    rw [show read_json _ ACTIVE_OH_MY = _ from read_json_writeFile_self _ ACTIVE_OH_MY B]

/-- Witness for C10 at the empty filesystem. -/
theorem save_set_empty_name_witness :
    pathJoin OPENCODE_DIR "" = OPENCODE_DIR
  ∧ (save_set ⟨[], []⟩ "" (.obj [("a", .num 1)]) (.obj [])).2 = none
  ∧ read_active_opencode (save_set ⟨[], []⟩ "" (.obj [("a", .num 1)]) (.obj [])).1
      = .ok (.obj [("a", .num 1)])
  ∧ read_active_oh_my_opencode (save_set ⟨[], []⟩ "" (.obj [("a", .num 1)]) (.obj [])).1
      = .ok (.obj []) :=
  save_set_empty_name ⟨[], []⟩ _ _ (fun _ _ _ => rfl) (by decide) (by decide)

theorem rawRead_mk_files (X : FS) (D : List FsPath) (q : FsPath) :
    FS.rawRead ⟨X.files, D⟩ q = X.rawRead q := rfl

theorem FS.mk_eta (X : FS) : (⟨X.files, X.dirs⟩ : FS) = X := rfl

theorem not_prefix_of_length_lt {α : Type} {l1 l2 : List α} (h : l2.length < l1.length) :
    ¬(l1 <+: l2) := fun hp => absurd hp.length_le (by omega)

theorem dropLast_append_one {α : Type} (l : List α) (a : α) : (l ++ [a]).dropLast = l := by
  simp

/-- The filesystem produced by `save_set fs name A B` for a nonempty
valid name in a benign state. -/
def namedSaveResult (fs : FS) (name : String) (A B : Json) : FS :=
  (⟨((⟨fs.files, (OPENCODE_DIR ++ [name]).inits
          ++ ((OPENCODE_DIR ++ [name]).inits ++ fs.dirs)⟩ : FS).writeFile
        ((OPENCODE_DIR ++ [name]) ++ ["config.json"]) (dumps A)).files,
      (OPENCODE_DIR ++ [name]).inits
        ++ ((⟨fs.files, (OPENCODE_DIR ++ [name]).inits
          ++ ((OPENCODE_DIR ++ [name]).inits ++ fs.dirs)⟩ : FS).writeFile
        ((OPENCODE_DIR ++ [name]) ++ ["config.json"]) (dumps A)).dirs⟩ : FS).writeFile
    ((OPENCODE_DIR ++ [name]) ++ ["oh-my-opencode.json"]) (dumps B)

theorem save_set_named_eq (fs : FS) (name : String) (A B : Json)
    (hsep : name.data.contains '/' = false)
    (hbs : name.data.contains backslashC = false)
    (hd1 : ¬(name = ".")) (hd2 : ¬(name = ".."))
    (hne : ¬(name = ""))
    (hclean : ∀ q, q <+: OPENCODE_DIR ++ [name] → ¬(q = []) → fs.rawRead q = none)
    (hsc : fs.isDir ((OPENCODE_DIR ++ [name]) ++ ["config.json"]) = false)
    (hso : fs.isDir ((OPENCODE_DIR ++ [name]) ++ ["oh-my-opencode.json"]) = false) :
    save_set fs name A B = (namedSaveResult fs name A B, none) := by
  have hpj : pathJoin OPENCODE_DIR name = OPENCODE_DIR ++ [name] :=
    pathJoin_single _ _ hsep hne hd1
  have hrsd : resolvePath (OPENCODE_DIR ++ [name]) = OPENCODE_DIR ++ [name] := by
    rw [resolvePath_append_one _ _ hd1 hd2, resolvePath_opencode]
  have hrpc : resolvePath ((OPENCODE_DIR ++ [name]) ++ ["config.json"])
      = (OPENCODE_DIR ++ [name]) ++ ["config.json"] := by
    rw [resolvePath_append_one _ _ (by decide) (by decide), hrsd]
  have hrpo : resolvePath ((OPENCODE_DIR ++ [name]) ++ ["oh-my-opencode.json"])
      = (OPENCODE_DIR ++ [name]) ++ ["oh-my-opencode.json"] := by
    rw [resolvePath_append_one _ _ (by decide) (by decide), hrsd]
  have hlen : (OPENCODE_DIR ++ [name]).length = 5 := by simp [OPENCODE_DIR, HOME]
  have hmk1 : fs.mkdirs (OPENCODE_DIR ++ [name])
      = some ⟨fs.files, (OPENCODE_DIR ++ [name]).inits ++ fs.dirs⟩ := by
    have h0 := @mkdirs_some_of fs (OPENCODE_DIR ++ [name])
      (by intro q hq hqne; exact hclean q (by rwa [hrsd] at hq) hqne)
    rwa [hrsd] at h0
  have hw1 : write_json (⟨fs.files, (OPENCODE_DIR ++ [name]).inits ++ fs.dirs⟩ : FS)
      ((OPENCODE_DIR ++ [name]) ++ ["config.json"]) A
      = ((⟨fs.files, (OPENCODE_DIR ++ [name]).inits
          ++ ((OPENCODE_DIR ++ [name]).inits ++ fs.dirs)⟩ : FS).writeFile
          ((OPENCODE_DIR ++ [name]) ++ ["config.json"]) (dumps A), none) := by
    have h0 := write_json_ok (⟨fs.files, (OPENCODE_DIR ++ [name]).inits ++ fs.dirs⟩ : FS)
      ((OPENCODE_DIR ++ [name]) ++ ["config.json"]) A
      (by intro q hq hqne
          rw [dropLast_append_one, hrsd] at hq
          exact hclean q hq hqne)
      (by rw [show (⟨fs.files, (OPENCODE_DIR ++ [name]).inits ++ fs.dirs⟩ : FS).isDir
            ((OPENCODE_DIR ++ [name]) ++ ["config.json"])
            = _ from isDir_of_dirs_append_inits _ _ _ _]
          rw [hrpc]
          simp only [Bool.or_eq_false_iff]
          refine ⟨?_, hsc⟩
          rw [decide_eq_false]
          exact not_prefix_of_length_lt (by simp [OPENCODE_DIR, HOME])
      )
      (by rw [dropLast_append_one, hrpc, hrsd]
          exact not_prefix_of_length_lt (by simp [OPENCODE_DIR, HOME]))
    rwa [dropLast_append_one, hrsd] at h0
  have hw2 : write_json ((⟨fs.files, (OPENCODE_DIR ++ [name]).inits
        ++ ((OPENCODE_DIR ++ [name]).inits ++ fs.dirs)⟩ : FS).writeFile
        ((OPENCODE_DIR ++ [name]) ++ ["config.json"]) (dumps A))
        ((OPENCODE_DIR ++ [name]) ++ ["oh-my-opencode.json"]) B
      = (namedSaveResult fs name A B, none) := by
    have h0 := write_json_ok ((⟨fs.files, (OPENCODE_DIR ++ [name]).inits
        ++ ((OPENCODE_DIR ++ [name]).inits ++ fs.dirs)⟩ : FS).writeFile
        ((OPENCODE_DIR ++ [name]) ++ ["config.json"]) (dumps A))
        ((OPENCODE_DIR ++ [name]) ++ ["oh-my-opencode.json"]) B
      (by intro q hq hqne
          rw [dropLast_append_one, hrsd] at hq
          rw [show FS.rawRead _ q = _ from rawRead_writeFile _ _ (dumps A) q]
          rw [if_neg ?_]
          · exact hclean q hq hqne
          · intro e
            subst e
            rw [hrpc] at hq
            have := hq.length_le
            simp [OPENCODE_DIR, HOME] at this)
      (by rw [isDir_writeFile]
          rw [show (⟨fs.files, (OPENCODE_DIR ++ [name]).inits
              ++ ((OPENCODE_DIR ++ [name]).inits ++ fs.dirs)⟩ : FS).isDir
              ((OPENCODE_DIR ++ [name]) ++ ["oh-my-opencode.json"])
              = _ from isDir_of_dirs_append_inits _ _ _ _]
          rw [show FS.isDir ⟨fs.files, (OPENCODE_DIR ++ [name]).inits ++ fs.dirs⟩
              ((OPENCODE_DIR ++ [name]) ++ ["oh-my-opencode.json"])
              = _ from isDir_of_dirs_append_inits _ _ _ _]
          rw [hrpo]
          simp only [Bool.or_eq_false_iff]
          refine ⟨?_, ?_, hso⟩ <;>
            · rw [decide_eq_false]
              exact not_prefix_of_length_lt (by simp [OPENCODE_DIR, HOME]))
      (by rw [dropLast_append_one, hrpo, hrsd]
          exact not_prefix_of_length_lt (by simp [OPENCODE_DIR, HOME]))
    rwa [dropLast_append_one, hrsd] at h0
  unfold save_set
  rw [if_neg (by
    simp only [Bool.or_eq_true, not_or]
    refine ⟨⟨⟨by simpa using hsep, by simpa using hbs⟩, by simpa using hd1⟩, by simpa using hd2⟩)]
  rw [hpj]
  show (match fs.mkdirs (OPENCODE_DIR ++ [name]) with
    | none => (fs, some IOErr.fileExists)
    | some fs1 =>
      match write_json fs1 ((OPENCODE_DIR ++ [name]) ++ ["config.json"]) A with
      | (fs2, some e) => (fs2, some e)
      | (fs2, none) => write_json fs2 ((OPENCODE_DIR ++ [name]) ++ ["oh-my-opencode.json"]) B)
      = _
  rw [hmk1]
  simp only
  rw [hw1]
  show write_json ((⟨fs.files, (OPENCODE_DIR ++ [name]).inits
      ++ ((OPENCODE_DIR ++ [name]).inits ++ fs.dirs)⟩ : FS).writeFile
      ((OPENCODE_DIR ++ [name]) ++ ["config.json"]) (dumps A))
      ((OPENCODE_DIR ++ [name]) ++ ["oh-my-opencode.json"]) B = _
  exact hw2

theorem readFile_emptySave_config (fs : FS) (A B : Json) :
    (emptySaveResult fs A B).readFile ACTIVE_CONFIG = some (dumps A) := by
  unfold emptySaveResult
  rw [readFile_writeFile, if_neg (by decide), readFile_mk_files, readFile_writeFile,
    if_pos rfl]

theorem readFile_emptySave_oh_my (fs : FS) (A B : Json) :
    (emptySaveResult fs A B).readFile ACTIVE_OH_MY = some (dumps B) := by
  unfold emptySaveResult
  rw [readFile_writeFile, if_pos rfl]

theorem isDir_emptySave (fs : FS) (A B : Json) (q : FsPath) :
    (emptySaveResult fs A B).isDir q
      = (decide (resolvePath q <+: OPENCODE_DIR) || fs.isDir q) := by
  show (OPENCODE_DIR.inits ++ (OPENCODE_DIR.inits ++ (OPENCODE_DIR.inits ++ fs.dirs))).contains
      (resolvePath q) = _
  simp only [contains_append_paths, contains_inits]
  show _ = (_ || fs.dirs.contains (resolvePath q))
  cases decide (resolvePath q <+: OPENCODE_DIR) <;>
    cases fs.dirs.contains (resolvePath q) <;> rfl

theorem isDir_namedSave (fs : FS) (name : String) (A B : Json) (q : FsPath) :
    (namedSaveResult fs name A B).isDir q
      = (decide (resolvePath q <+: OPENCODE_DIR ++ [name]) || fs.isDir q) := by
  show ((OPENCODE_DIR ++ [name]).inits ++ ((OPENCODE_DIR ++ [name]).inits
      ++ ((OPENCODE_DIR ++ [name]).inits ++ fs.dirs))).contains (resolvePath q) = _
  simp only [contains_append_paths, contains_inits]
  show _ = (_ || fs.dirs.contains (resolvePath q))
  cases decide (resolvePath q <+: OPENCODE_DIR ++ [name]) <;>
    cases fs.dirs.contains (resolvePath q) <;> rfl

theorem rawRead_emptySave (fs : FS) (A B : Json) (q : FsPath)
    (h1 : ¬(q = ACTIVE_CONFIG)) (h2 : ¬(q = ACTIVE_OH_MY)) :
    (emptySaveResult fs A B).rawRead q = fs.rawRead q := by
  unfold emptySaveResult
  rw [rawRead_writeFile, if_neg (by rw [resolvePath_active_oh_my]; exact h2),
    rawRead_mk_files, rawRead_writeFile,
    if_neg (by rw [resolvePath_active_config]; exact h1)]
  rfl

theorem rawRead_namedSave (fs : FS) (name : String) (A B : Json) (q : FsPath)
    (h1 : ¬(q = resolvePath ((OPENCODE_DIR ++ [name]) ++ ["config.json"])))
    (h2 : ¬(q = resolvePath ((OPENCODE_DIR ++ [name]) ++ ["oh-my-opencode.json"]))) :
    (namedSaveResult fs name A B).rawRead q = fs.rawRead q := by
  unfold namedSaveResult
  rw [rawRead_writeFile, if_neg h2, rawRead_mk_files, rawRead_writeFile, if_neg h1]
  rfl

theorem readFile_namedSave_config (fs : FS) (name : String) (A B : Json)
    (hne : ¬(resolvePath ((OPENCODE_DIR ++ [name]) ++ ["config.json"])
      = resolvePath ((OPENCODE_DIR ++ [name]) ++ ["oh-my-opencode.json"]))) :
    (namedSaveResult fs name A B).readFile ((OPENCODE_DIR ++ [name]) ++ ["config.json"])
      = some (dumps A) := by
  unfold namedSaveResult
  rw [readFile_writeFile, if_neg hne, readFile_mk_files, readFile_writeFile, if_pos rfl]

theorem readFile_namedSave_oh_my (fs : FS) (name : String) (A B : Json) :
    (namedSaveResult fs name A B).readFile ((OPENCODE_DIR ++ [name]) ++ ["oh-my-opencode.json"])
      = some (dumps B) := by
  unfold namedSaveResult
  rw [readFile_writeFile, if_pos rfl]

theorem apply_after_empty_save (fs : FS) (A B : Json)
    (hroot : ∀ q, q <+: OPENCODE_DIR → ¬(q = []) → fs.rawRead q = none)
    (hc : fs.isDir ACTIVE_CONFIG = false)
    (ho : fs.isDir ACTIVE_OH_MY = false) :
    apply_set (emptySaveResult fs A B) ""
      = (⟨(emptySaveResult fs A B).files,
          OPENCODE_DIR.inits ++ (emptySaveResult fs A B).dirs⟩, some .sameFile) := by
  have hdirroot : (emptySaveResult fs A B).isDir OPENCODE_DIR = true := by
    rw [isDir_emptySave, resolvePath_opencode, decide_eq_true (List.prefix_refl _)]
    rfl
  have hmk : (emptySaveResult fs A B).mkdirs OPENCODE_DIR
      = some ⟨(emptySaveResult fs A B).files,
          OPENCODE_DIR.inits ++ (emptySaveResult fs A B).dirs⟩ := by
    have h0 := @mkdirs_some_of (emptySaveResult fs A B) OPENCODE_DIR ?_
    · rwa [resolvePath_opencode] at h0
    · intro q hq hqne
      rw [resolvePath_opencode] at hq
      have hlq : q.length ≤ 4 := le_trans hq.length_le (by decide)
      rw [rawRead_emptySave fs A B q
        (fun e => by rw [e] at hlq; simp [ACTIVE_CONFIG, OPENCODE_DIR, HOME] at hlq)
        (fun e => by rw [e] at hlq; simp [ACTIVE_OH_MY, OPENCODE_DIR, HOME] at hlq)]
      exact hroot q hq hqne
  have hread2 : FS.readFile ⟨(emptySaveResult fs A B).files,
      OPENCODE_DIR.inits ++ (emptySaveResult fs A B).dirs⟩ ACTIVE_CONFIG
      = some (dumps A) := by
    rw [readFile_mk_files, readFile_emptySave_config]
  have hdir2 : FS.isDir ⟨(emptySaveResult fs A B).files,
      OPENCODE_DIR.inits ++ (emptySaveResult fs A B).dirs⟩ ACTIVE_CONFIG = false := by
    rw [isDir_of_dirs_append_inits, FS.mk_eta, isDir_emptySave, resolvePath_active_config]
    rw [decide_eq_false (not_prefix_of_length_lt (by decide)), hc]
    rfl
  have hpe : FS.pathExists ⟨(emptySaveResult fs A B).files,
      OPENCODE_DIR.inits ++ (emptySaveResult fs A B).dirs⟩ ACTIVE_CONFIG = true := by
    unfold FS.pathExists
    rw [hread2]
    rfl
  have hcopy : copy2 ⟨(emptySaveResult fs A B).files,
      OPENCODE_DIR.inits ++ (emptySaveResult fs A B).dirs⟩ ACTIVE_CONFIG ACTIVE_CONFIG
      = (⟨(emptySaveResult fs A B).files,
          OPENCODE_DIR.inits ++ (emptySaveResult fs A B).dirs⟩, some .sameFile) := by
    unfold copy2
    rw [hread2]
    show (if resolvePath ACTIVE_CONFIG
        = resolvePath (if FS.isDir _ ACTIVE_CONFIG then ACTIVE_CONFIG ++ [lastComponent ACTIVE_CONFIG]
          else ACTIVE_CONFIG) then _ else _) = _
    rw [hdir2]
    show (if resolvePath ACTIVE_CONFIG = resolvePath ACTIVE_CONFIG then _ else _) = _
    rw [if_pos rfl]
  unfold apply_set
  show (if !((emptySaveResult fs A B).isDir (pathJoin OPENCODE_DIR "")) then _
    else match (emptySaveResult fs A B).mkdirs OPENCODE_DIR with
      | none => ((emptySaveResult fs A B), some IOErr.fileExists)
      | some fs1 =>
        match (if fs1.pathExists ACTIVE_CONFIG then copy2 fs1 ACTIVE_CONFIG ACTIVE_CONFIG
            else (fs1, none)) with
        | (fs2, some e) => (fs2, some e)
        | (fs2, none) =>
          if fs2.pathExists ACTIVE_OH_MY then copy2 fs2 ACTIVE_OH_MY ACTIVE_OH_MY
          else (fs2, none)) = _
  rw [pathJoin_empty, if_neg (by rw [hdirroot]; decide), hmk]
  show (match (if FS.pathExists _ ACTIVE_CONFIG then copy2 _ ACTIVE_CONFIG ACTIVE_CONFIG
      else (_, none)) with
    | (fs2, some e) => (fs2, some e)
    | (fs2, none) =>
      if fs2.pathExists ACTIVE_OH_MY then copy2 fs2 ACTIVE_OH_MY ACTIVE_OH_MY
      else (fs2, none)) = _
  rw [hpe, if_pos rfl, hcopy]

theorem not_active_config_prefix_set (name : String) (h : ¬(name = "config.json")) :
    ¬(ACTIVE_CONFIG <+: OPENCODE_DIR ++ [name]) := by
  intro hp
  have he := hp.eq_of_length (by simp [ACTIVE_CONFIG, OPENCODE_DIR, HOME])
  rw [ACTIVE_CONFIG] at he
  simp at he
  exact h he.symm

theorem not_active_oh_my_prefix_set (name : String) (h : ¬(name = "oh-my-opencode.json")) :
    ¬(ACTIVE_OH_MY <+: OPENCODE_DIR ++ [name]) := by
  intro hp
  have he := hp.eq_of_length (by simp [ACTIVE_OH_MY, OPENCODE_DIR, HOME])
  rw [ACTIVE_OH_MY] at he
  simp at he
  exact h he.symm

theorem apply_after_named_save (fs : FS) (name : String) (A B : Json)
    (hsep : name.data.contains '/' = false)
    (hd1 : ¬(name = ".")) (hd2 : ¬(name = ".."))
    (hne : ¬(name = ""))
    (hn1 : ¬(name = "config.json")) (hn2 : ¬(name = "oh-my-opencode.json"))
    (hclean : ∀ q, q <+: OPENCODE_DIR ++ [name] → ¬(q = []) → fs.rawRead q = none)
    (hc : fs.isDir ACTIVE_CONFIG = false)
    (ho : fs.isDir ACTIVE_OH_MY = false) :
    apply_set (namedSaveResult fs name A B) name
      = ((FS.writeFile (FS.writeFile ⟨(namedSaveResult fs name A B).files,
          OPENCODE_DIR.inits ++ (namedSaveResult fs name A B).dirs⟩
          ACTIVE_CONFIG (dumps A)) ACTIVE_OH_MY (dumps B)), none) := by
  have hpj : pathJoin OPENCODE_DIR name = OPENCODE_DIR ++ [name] :=
    pathJoin_single _ _ hsep hne hd1
  have hrsd : resolvePath (OPENCODE_DIR ++ [name]) = OPENCODE_DIR ++ [name] := by
    rw [resolvePath_append_one _ _ hd1 hd2, resolvePath_opencode]
  have hrpc : resolvePath ((OPENCODE_DIR ++ [name]) ++ ["config.json"])
      = (OPENCODE_DIR ++ [name]) ++ ["config.json"] := by
    rw [resolvePath_append_one _ _ (by decide) (by decide), hrsd]
  have hrpo : resolvePath ((OPENCODE_DIR ++ [name]) ++ ["oh-my-opencode.json"])
      = (OPENCODE_DIR ++ [name]) ++ ["oh-my-opencode.json"] := by
    rw [resolvePath_append_one _ _ (by decide) (by decide), hrsd]
  have hneCO : ¬(resolvePath ((OPENCODE_DIR ++ [name]) ++ ["config.json"])
      = resolvePath ((OPENCODE_DIR ++ [name]) ++ ["oh-my-opencode.json"])) := by
    rw [hrpc, hrpo]
    intro h
    simp at h
  have hdsd : (namedSaveResult fs name A B).isDir (OPENCODE_DIR ++ [name]) = true := by
    rw [isDir_namedSave, hrsd, decide_eq_true (List.prefix_refl _)]
    rfl
  have hmk : (namedSaveResult fs name A B).mkdirs OPENCODE_DIR
      = some ⟨(namedSaveResult fs name A B).files,
          OPENCODE_DIR.inits ++ (namedSaveResult fs name A B).dirs⟩ := by
    have h0 := @mkdirs_some_of (namedSaveResult fs name A B) OPENCODE_DIR ?_
    · rwa [resolvePath_opencode] at h0
    · intro q hq hqne
      rw [resolvePath_opencode] at hq
      have hlq : q.length ≤ 4 := le_trans hq.length_le (by decide)
      rw [rawRead_namedSave fs name A B q
        (fun e => by rw [e, hrpc] at hlq; simp [OPENCODE_DIR, HOME] at hlq)
        (fun e => by rw [e, hrpo] at hlq; simp [OPENCODE_DIR, HOME] at hlq)]
      exact hclean q (hq.trans (List.prefix_append _ _)) hqne
  have hread2C : FS.readFile ⟨(namedSaveResult fs name A B).files,
      OPENCODE_DIR.inits ++ (namedSaveResult fs name A B).dirs⟩
      ((OPENCODE_DIR ++ [name]) ++ ["config.json"]) = some (dumps A) := by
    rw [readFile_mk_files, readFile_namedSave_config fs name A B hneCO]
  have hpeC : FS.pathExists ⟨(namedSaveResult fs name A B).files,
      OPENCODE_DIR.inits ++ (namedSaveResult fs name A B).dirs⟩
      ((OPENCODE_DIR ++ [name]) ++ ["config.json"]) = true := by
    unfold FS.pathExists
    rw [hread2C]
    rfl
  have hdirA2 : FS.isDir ⟨(namedSaveResult fs name A B).files,
      OPENCODE_DIR.inits ++ (namedSaveResult fs name A B).dirs⟩ ACTIVE_CONFIG = false := by
    rw [isDir_of_dirs_append_inits, FS.mk_eta, isDir_namedSave, resolvePath_active_config]
    rw [decide_eq_false (not_prefix_of_length_lt (by decide)),
      decide_eq_false (not_active_config_prefix_set name hn1), hc]
    rfl
  have hcopyC : copy2 ⟨(namedSaveResult fs name A B).files,
      OPENCODE_DIR.inits ++ (namedSaveResult fs name A B).dirs⟩
      ((OPENCODE_DIR ++ [name]) ++ ["config.json"]) ACTIVE_CONFIG
      = (FS.writeFile ⟨(namedSaveResult fs name A B).files,
          OPENCODE_DIR.inits ++ (namedSaveResult fs name A B).dirs⟩
          ACTIVE_CONFIG (dumps A), none) := by
    unfold copy2
    rw [hread2C]
    show (if resolvePath ((OPENCODE_DIR ++ [name]) ++ ["config.json"])
        = resolvePath (if FS.isDir _ ACTIVE_CONFIG
          then ACTIVE_CONFIG ++ [lastComponent ((OPENCODE_DIR ++ [name]) ++ ["config.json"])]
          else ACTIVE_CONFIG) then _ else _) = _
    rw [hdirA2]
    show (if resolvePath ((OPENCODE_DIR ++ [name]) ++ ["config.json"])
        = resolvePath ACTIVE_CONFIG then _ else _) = _
    rw [if_neg (by
      rw [hrpc, resolvePath_active_config]
      intro h
      have hl := congrArg List.length h
      simp [ACTIVE_CONFIG, OPENCODE_DIR, HOME] at hl)]
    rfl
  have hreadO3 : FS.readFile (FS.writeFile ⟨(namedSaveResult fs name A B).files,
      OPENCODE_DIR.inits ++ (namedSaveResult fs name A B).dirs⟩ ACTIVE_CONFIG (dumps A))
      ((OPENCODE_DIR ++ [name]) ++ ["oh-my-opencode.json"]) = some (dumps B) := by
    rw [readFile_writeFile, if_neg (by
      rw [hrpo, resolvePath_active_config]
      intro h
      have hl := congrArg List.length h
      simp [ACTIVE_CONFIG, OPENCODE_DIR, HOME] at hl)]
    rw [readFile_mk_files, readFile_namedSave_oh_my]
  have hpeO : FS.pathExists (FS.writeFile ⟨(namedSaveResult fs name A B).files,
      OPENCODE_DIR.inits ++ (namedSaveResult fs name A B).dirs⟩ ACTIVE_CONFIG (dumps A))
      ((OPENCODE_DIR ++ [name]) ++ ["oh-my-opencode.json"]) = true := by
    unfold FS.pathExists
    rw [hreadO3]
    rfl
  have hdirO3 : FS.isDir (FS.writeFile ⟨(namedSaveResult fs name A B).files,
      OPENCODE_DIR.inits ++ (namedSaveResult fs name A B).dirs⟩ ACTIVE_CONFIG (dumps A))
      ACTIVE_OH_MY = false := by
    rw [isDir_writeFile, isDir_of_dirs_append_inits, FS.mk_eta, isDir_namedSave,
      resolvePath_active_oh_my]
    rw [decide_eq_false (not_prefix_of_length_lt (by decide)),
      decide_eq_false (not_active_oh_my_prefix_set name hn2), ho]
    rfl
  have hcopyO : copy2 (FS.writeFile ⟨(namedSaveResult fs name A B).files,
      OPENCODE_DIR.inits ++ (namedSaveResult fs name A B).dirs⟩ ACTIVE_CONFIG (dumps A))
      ((OPENCODE_DIR ++ [name]) ++ ["oh-my-opencode.json"]) ACTIVE_OH_MY
      = (FS.writeFile (FS.writeFile ⟨(namedSaveResult fs name A B).files,
          OPENCODE_DIR.inits ++ (namedSaveResult fs name A B).dirs⟩ ACTIVE_CONFIG (dumps A))
          ACTIVE_OH_MY (dumps B), none) := by
    unfold copy2
    rw [hreadO3]
    show (if resolvePath ((OPENCODE_DIR ++ [name]) ++ ["oh-my-opencode.json"])
        = resolvePath (if FS.isDir _ ACTIVE_OH_MY
          then ACTIVE_OH_MY
            ++ [lastComponent ((OPENCODE_DIR ++ [name]) ++ ["oh-my-opencode.json"])]
          else ACTIVE_OH_MY) then _ else _) = _
    rw [hdirO3]
    show (if resolvePath ((OPENCODE_DIR ++ [name]) ++ ["oh-my-opencode.json"])
        = resolvePath ACTIVE_OH_MY then _ else _) = _
    rw [if_neg (by
      rw [hrpo, resolvePath_active_oh_my]
      intro h
      have hl := congrArg List.length h
      simp [ACTIVE_OH_MY, OPENCODE_DIR, HOME] at hl)]
    rfl
  unfold apply_set
  show (if !((namedSaveResult fs name A B).isDir (pathJoin OPENCODE_DIR name)) then _
    else match (namedSaveResult fs name A B).mkdirs OPENCODE_DIR with
      | none => ((namedSaveResult fs name A B), some IOErr.fileExists)
      | some fs1 =>
        match (if fs1.pathExists (pathJoin OPENCODE_DIR name ++ ["config.json"])
            then copy2 fs1 (pathJoin OPENCODE_DIR name ++ ["config.json"]) ACTIVE_CONFIG
            else (fs1, none)) with
        | (fs2, some e) => (fs2, some e)
        | (fs2, none) =>
          if fs2.pathExists (pathJoin OPENCODE_DIR name ++ ["oh-my-opencode.json"])
          then copy2 fs2 (pathJoin OPENCODE_DIR name ++ ["oh-my-opencode.json"]) ACTIVE_OH_MY
          else (fs2, none)) = _
  rw [hpj, if_neg (by rw [hdsd]; decide), hmk]
  show (match (if FS.pathExists _ ((OPENCODE_DIR ++ [name]) ++ ["config.json"])
      then copy2 _ ((OPENCODE_DIR ++ [name]) ++ ["config.json"]) ACTIVE_CONFIG
      else (_, none)) with
    | (fs2, some e) => (fs2, some e)
    | (fs2, none) =>
      if fs2.pathExists ((OPENCODE_DIR ++ [name]) ++ ["oh-my-opencode.json"])
      then copy2 fs2 ((OPENCODE_DIR ++ [name]) ++ ["oh-my-opencode.json"]) ACTIVE_OH_MY
      else (fs2, none)) = _
  rw [hpeC, if_pos rfl, hcopyC]
  show (if FS.pathExists _ ((OPENCODE_DIR ++ [name]) ++ ["oh-my-opencode.json"])
    then copy2 _ ((OPENCODE_DIR ++ [name]) ++ ["oh-my-opencode.json"]) ACTIVE_OH_MY
    else (_, none)) = _
  rw [hpeO, if_pos rfl, hcopyO]

/-- Counterexample to the literal claim: `"config.json"` is a valid set
name (no separator, not `.` or `..`), yet saving under it creates a
directory at the active assistant config path, so the subsequent apply
aborts and the active assistant config is a directory, not `A`. -/
theorem save_then_apply_collision_cex :
    ("config.json".data.contains '/' = false
      ∧ "config.json".data.contains backslashC = false
      ∧ ¬("config.json" = ".") ∧ ¬("config.json" = ".."))
    ∧ (save_set ⟨[], []⟩ "config.json" (.obj []) (.obj [])).2 = none
    ∧ read_active_opencode
        ((apply_set (save_set ⟨[], []⟩ "config.json" (.obj []) (.obj [])).1 "config.json").1)
      = .error .isADir
    ∧ ¬(read_active_opencode
        ((apply_set (save_set ⟨[], []⟩ "config.json" (.obj []) (.obj [])).1 "config.json").1)
      = .ok (.obj [])) := by
  refine ⟨by decide, rfl, rfl, ?_⟩
  intro h
  rw [show read_active_opencode
      ((apply_set (save_set ⟨[], []⟩ "config.json" (.obj []) (.obj [])).1 "config.json").1)
    = .error .isADir from rfl] at h
  exact Except.noConfusion h

/-- **C1 (amended).** For every set name that is valid (no separator, not
`.` or `..`) and moreover distinct from the two reserved config file
names, and all config objects `A` and `B`: from a state where no file
blocks the ancestry of the set directory, the set's two file paths and
the two active paths are not directories, `save_set` succeeds and a
subsequent `apply_set` leaves the active assistant config parsing to `A`
and the active extension config parsing to `B`. -/
theorem save_then_apply_roundtrip (fs : FS) (name : String) (A B : Json)
    (hsep : name.data.contains '/' = false)
    (hbs : name.data.contains backslashC = false)
    (hd1 : ¬(name = ".")) (hd2 : ¬(name = ".."))
    (hn1 : ¬(name = "config.json")) (hn2 : ¬(name = "oh-my-opencode.json"))
    (hclean : ∀ q, q <+: resolvePath (pathJoin OPENCODE_DIR name) → ¬(q = []) →
        fs.rawRead q = none)
    (hsc : fs.isDir (pathJoin OPENCODE_DIR name ++ ["config.json"]) = false)
    (hso : fs.isDir (pathJoin OPENCODE_DIR name ++ ["oh-my-opencode.json"]) = false)
    (hc : fs.isDir ACTIVE_CONFIG = false)
    (ho : fs.isDir ACTIVE_OH_MY = false) :
    (save_set fs name A B).2 = none
    ∧ read_active_opencode ((apply_set (save_set fs name A B).1 name).1) = .ok A
    ∧ read_active_oh_my_opencode ((apply_set (save_set fs name A B).1 name).1) = .ok B := by
  by_cases hne : name = ""
  · subst hne
    rw [pathJoin_empty, resolvePath_opencode] at hclean
    have hsave := save_set_empty_eq fs A B hclean hc ho
    have happly := apply_after_empty_save fs A B hclean hc ho
    refine ⟨by rw [hsave], ?_, ?_⟩
    · rw [hsave]
      show read_active_opencode ((apply_set (emptySaveResult fs A B) "").1) = Except.ok A
      rw [happly]
      show read_json ⟨(emptySaveResult fs A B).files,
        OPENCODE_DIR.inits ++ (emptySaveResult fs A B).dirs⟩ ACTIVE_CONFIG = Except.ok A
      rw [read_json_mk_files, readFile_emptySave_config]
      simp [loads_dumps]
    · rw [hsave]
      show read_active_oh_my_opencode ((apply_set (emptySaveResult fs A B) "").1) = Except.ok B
      rw [happly]
      show read_json ⟨(emptySaveResult fs A B).files,
        OPENCODE_DIR.inits ++ (emptySaveResult fs A B).dirs⟩ ACTIVE_OH_MY = Except.ok B
      rw [read_json_mk_files, readFile_emptySave_oh_my]
      simp [loads_dumps]
  · rw [pathJoin_single _ _ hsep hne hd1] at hclean hsc hso
    rw [resolvePath_append_one _ _ hd1 hd2, resolvePath_opencode] at hclean
    have hsave := save_set_named_eq fs name A B hsep hbs hd1 hd2 hne hclean hsc hso
    have happly := apply_after_named_save fs name A B hsep hd1 hd2 hne hn1 hn2 hclean hc ho
    refine ⟨by rw [hsave], ?_, ?_⟩
    · rw [hsave]
      show read_active_opencode ((apply_set (namedSaveResult fs name A B) name).1) = Except.ok A
      rw [happly]
      show read_json _ ACTIVE_CONFIG = Except.ok A
      rw [read_json_writeFile_ne _ _ _ _ (by decide), read_json_writeFile_self]
    · rw [hsave]
      show read_active_oh_my_opencode ((apply_set (namedSaveResult fs name A B) name).1)
        = Except.ok B
      rw [happly]
      show read_json _ ACTIVE_OH_MY = Except.ok B
      rw [read_json_writeFile_self]

theorem save_then_apply_roundtrip_witness :
    (save_set ⟨[], []⟩ "work" (.obj []) (.obj [])).2 = none
    ∧ read_active_opencode
        ((apply_set (save_set ⟨[], []⟩ "work" (.obj []) (.obj [])).1 "work").1)
      = .ok (.obj [])
    ∧ read_active_oh_my_opencode
        ((apply_set (save_set ⟨[], []⟩ "work" (.obj []) (.obj [])).1 "work").1)
      = .ok (.obj []) :=
  save_then_apply_roundtrip ⟨[], []⟩ "work" (.obj []) (.obj [])
    (by decide) (by decide) (by decide) (by decide) (by decide) (by decide)
    (fun _ _ _ => rfl) (by decide) (by decide) (by decide) (by decide)

/-- **C7.** Writing an active config of either kind and then reading that
active config returns an object equal to what was written, for every
JSON value, whenever the write raised nothing. -/
theorem write_then_read_active (fs : FS) (d : Json)
    (hA : (write_active_opencode fs d).2 = none)
    (hB : (write_active_oh_my_opencode fs d).2 = none) :
    read_active_opencode (write_active_opencode fs d).1 = .ok d
    ∧ read_active_oh_my_opencode (write_active_oh_my_opencode fs d).1 = .ok d := by
  constructor
  · unfold write_active_opencode write_json at hA ⊢
    cases hmk : fs.mkdirs ACTIVE_CONFIG.dropLast with
    | none => rw [hmk] at hA; simp at hA
    | some fs1 =>
      rw [hmk] at hA
      have hA2 : (if fs1.isDir ACTIVE_CONFIG = true then (fs1, some IOErr.isADir)
          else (fs1.writeFile ACTIVE_CONFIG (dumps d), none)).2 = none := hA
      by_cases hd : fs1.isDir ACTIVE_CONFIG
      · rw [if_pos hd] at hA2; simp at hA2
      · show read_active_opencode
          (if fs1.isDir ACTIVE_CONFIG = true then (fs1, some IOErr.isADir)
            else (fs1.writeFile ACTIVE_CONFIG (dumps d), none)).1 = Except.ok d
        rw [if_neg hd]
        exact read_json_writeFile_self fs1 ACTIVE_CONFIG d
  · unfold write_active_oh_my_opencode write_json at hB ⊢
    cases hmk : fs.mkdirs ACTIVE_OH_MY.dropLast with
    | none => rw [hmk] at hB; simp at hB
    | some fs1 =>
      rw [hmk] at hB
      have hB2 : (if fs1.isDir ACTIVE_OH_MY = true then (fs1, some IOErr.isADir)
          else (fs1.writeFile ACTIVE_OH_MY (dumps d), none)).2 = none := hB
      by_cases hd : fs1.isDir ACTIVE_OH_MY
      · rw [if_pos hd] at hB2; simp at hB2
      · show read_active_oh_my_opencode
          (if fs1.isDir ACTIVE_OH_MY = true then (fs1, some IOErr.isADir)
            else (fs1.writeFile ACTIVE_OH_MY (dumps d), none)).1 = Except.ok d
        rw [if_neg hd]
        exact read_json_writeFile_self fs1 ACTIVE_OH_MY d

theorem write_then_read_active_witness :
    read_active_opencode
        (write_active_opencode ⟨[], []⟩ (.obj [("model", .str "gpt"),
          ("extra", .obj [("deep", .arr [.num 1, .null, .bool true])])])).1
      = .ok (.obj [("model", .str "gpt"),
          ("extra", .obj [("deep", .arr [.num 1, .null, .bool true])])])
    ∧ read_active_oh_my_opencode
        (write_active_oh_my_opencode ⟨[], []⟩ (.obj [("model", .str "gpt"),
          ("extra", .obj [("deep", .arr [.num 1, .null, .bool true])])])).1
      = .ok (.obj [("model", .str "gpt"),
          ("extra", .obj [("deep", .arr [.num 1, .null, .bool true])])]) :=
  write_then_read_active ⟨[], []⟩ _ rfl rfl

theorem discoverItem_ok_flags (m : Json) (d : DiscoveredModel)
    (h : discoverItem m = some (.ok d)) :
    d.enabled = false ∧ d.existing_entry = none := by
  unfold discoverItem at h
  cases m with
  | obj ms =>
    have h2 : (match Json.lookup "id" ms with
      | some v =>
        if v.truthy then
          some (match v with
            | .str s => Except.ok (⟨s, false, none⟩ : DiscoveredModel)
            | _ => Except.error UpstreamErr.validation)
        else none
      | none => none) = some (Except.ok d) := h
    cases hv : Json.lookup "id" ms with
    | none => rw [hv] at h2; exact Option.noConfusion h2
    | some v =>
      rw [hv] at h2
      have h3 : (if v.truthy = true then
          some (match v with
            | .str s => Except.ok (⟨s, false, none⟩ : DiscoveredModel)
            | _ => Except.error UpstreamErr.validation)
          else none) = some (Except.ok d) := h2
      by_cases ht : v.truthy
      · rw [if_pos ht] at h3
        cases v with
        | str s =>
          have h4 := Except.ok.inj (Option.some.inj h3)
          rw [← h4]
          exact ⟨rfl, rfl⟩
        | null => exact Except.noConfusion (Option.some.inj h3)
        | bool b => exact Except.noConfusion (Option.some.inj h3)
        | num n => exact Except.noConfusion (Option.some.inj h3)
        | arr es => exact Except.noConfusion (Option.some.inj h3)
        | obj kvs => exact Except.noConfusion (Option.some.inj h3)
      · rw [if_neg ht] at h3
        exact Option.noConfusion h3
  | null => exact Option.noConfusion h
  | bool b => exact Option.noConfusion h
  | num n => exact Option.noConfusion h
  | str s => exact Option.noConfusion h
  | arr es => exact Option.noConfusion h

theorem buildModels_flags (ms : List Json) (l : List DiscoveredModel)
    (h : buildModels ms = .ok l) :
    ∀ d ∈ l, d.enabled = false ∧ d.existing_entry = none := by
  induction ms generalizing l with
  | nil =>
    rw [buildModels] at h
    rw [← Except.ok.inj h]
    intro d hd
    exact absurd hd (List.not_mem_nil d)
  | cons m ms ih =>
    rw [buildModels] at h
    cases hi : discoverItem m with
    | none => rw [hi] at h; exact ih l h
    | some r =>
      rw [hi] at h
      cases r with
      | error e => exact Except.noConfusion h
      | ok d0 =>
        cases hb : buildModels ms with
        | error e => rw [hb] at h; exact Except.noConfusion h
        | ok ds =>
          rw [hb] at h
          have hl : d0 :: ds = l := Except.ok.inj h
          intro d hd
          rw [← hl] at hd
          cases List.mem_cons.mp hd with
          | inl he => rw [he]; exact discoverItem_ok_flags m d0 hi
          | inr ht => exact ih ds hb d ht

/-- **C9.** Every model returned by a successful discovery call has its
`enabled` flag `false` and its `existing_entry` unset: the implementation
never populates them from the caller's configuration. -/
theorem discovered_models_flags_default (r : UpstreamResult) (l : List DiscoveredModel)
    (h : fetch_provider_models r = .ok l) :
    ∀ m ∈ l, m.enabled = false ∧ m.existing_entry = none := by
  unfold fetch_provider_models at h
  cases r with
  | netFailure => exact Except.noConfusion h
  | response status body =>
    have h2 : (if (decide (status < 200) || decide (300 ≤ status)) = true
        then Except.error (UpstreamErr.upstreamError status)
        else match rawModels body with
          | Json.arr ms => buildModels ms
          | _ => Except.error UpstreamErr.badFormat) = Except.ok l := h
    by_cases hs : (decide (status < 200) || decide (300 ≤ status)) = true
    · rw [if_pos hs] at h2; exact Except.noConfusion h2
    · rw [if_neg hs] at h2
      cases hr : rawModels body with
      | arr ms => rw [hr] at h2; exact buildModels_flags ms l h2
      | null => rw [hr] at h2; exact Except.noConfusion h2
      | bool b => rw [hr] at h2; exact Except.noConfusion h2
      | num n => rw [hr] at h2; exact Except.noConfusion h2
      | str s => rw [hr] at h2; exact Except.noConfusion h2
      | obj kvs => rw [hr] at h2; exact Except.noConfusion h2

theorem discovered_models_flags_default_witness :
    fetch_provider_models (.response 200 (.obj [("data", .arr [.obj [("id", .str "m1")]])]))
      = .ok [⟨"m1", false, none⟩]
    ∧ (⟨"m1", false, none⟩ : DiscoveredModel).enabled = false
    ∧ (⟨"m1", false, none⟩ : DiscoveredModel).existing_entry = none :=
  ⟨rfl,
    (discovered_models_flags_default
      (.response 200 (.obj [("data", .arr [.obj [("id", .str "m1")]])]))
      [⟨"m1", false, none⟩] rfl ⟨"m1", false, none⟩ (List.mem_singleton.mpr rfl)).1,
    (discovered_models_flags_default
      (.response 200 (.obj [("data", .arr [.obj [("id", .str "m1")]])]))
      [⟨"m1", false, none⟩] rfl ⟨"m1", false, none⟩ (List.mem_singleton.mpr rfl)).2⟩

/-- Counterexample to the literal claim: an item whose `id` is present but
falsy (the empty string) is dropped by the code, while the claim drops
only objects *lacking* an `id`. -/
theorem fetch_models_falsy_id_cex :
    fetch_provider_models (.response 200
        (.obj [("data", .arr [.obj [("id", .str "")], .obj [("id", .str "m1")]])]))
      = .ok [⟨"m1", false, none⟩]
    ∧ specModelIds [.obj [("id", .str "")], .obj [("id", .str "m1")]]
      = [.str "", .str "m1"]
    ∧ ¬(([⟨"m1", false, none⟩] : List DiscoveredModel).length
        = (specModelIds [.obj [("id", .str "")], .obj [("id", .str "m1")]]).length) := by
  refine ⟨rfl, rfl, by decide⟩

theorem discoverItem_of_idOk (m : Json) (h : idOkB m = true) :
    discoverItem m = (keptId m).map (fun s => Except.ok (⟨s, false, none⟩ : DiscoveredModel)) := by
  unfold discoverItem keptId
  cases m with
  | obj mbs =>
    have h2 : (match Json.lookup "id" mbs with
      | some v => !v.truthy || (match v with | .str _ => true | _ => false)
      | none => true) = true := h
    show (match Json.lookup "id" mbs with
      | some v =>
        if v.truthy then
          some (match v with
            | .str s => Except.ok (⟨s, false, none⟩ : DiscoveredModel)
            | _ => Except.error UpstreamErr.validation)
        else none
      | none => none)
      = Option.map (fun t => Except.ok (⟨t, false, none⟩ : DiscoveredModel))
        (match Json.lookup "id" mbs with
          | some (.str s) => if s = "" then none else some s
          | _ => none)
    cases hv : Json.lookup "id" mbs with
    | none => rfl
    | some v =>
      rw [hv] at h2
      cases v with
      | str s =>
        by_cases hs : s = ""
        · subst hs
          rfl
        · show (if (s != "") = true then some (Except.ok (⟨s, false, none⟩ : DiscoveredModel))
              else none)
            = Option.map (fun t => Except.ok (⟨t, false, none⟩ : DiscoveredModel))
              (if s = "" then none else some s)
          rw [if_pos (by simp [hs]), if_neg hs]
          rfl
      | null => rfl
      | bool b =>
        cases b with
        | false => rfl
        | true => exact absurd h2 (by decide)
      | num n =>
        by_cases hn : n = 0
        · subst hn
          rfl
        · have h3 : (!(n != 0) || false) = true := h2
          simp [hn] at h3
      | arr es =>
        cases es with
        | nil => rfl
        | cons e es =>
          have h3 : (!(!(e :: es).isEmpty) || false) = true := h2
          simp at h3
      | obj kvs =>
        cases kvs with
        | nil => rfl
        | cons kv kvs =>
          have h3 : (!(!(kv :: kvs).isEmpty) || false) = true := h2
          simp at h3
  | null => rfl
  | bool b => rfl
  | num n => rfl
  | str s => rfl
  | arr es => rfl

theorem buildModels_filterMap (ms : List Json) (h : ∀ m ∈ ms, idOkB m = true) :
    buildModels ms
      = .ok ((ms.filterMap keptId).map (fun s => (⟨s, false, none⟩ : DiscoveredModel))) := by
  induction ms with
  | nil => rfl
  | cons m ms ih =>
    cases hk : keptId m with
    | none =>
      rw [buildModels, discoverItem_of_idOk m (h m (List.mem_cons_self m ms)), hk,
        List.filterMap_cons_none hk]
      exact ih (fun x hx => h x (List.mem_cons_of_mem m hx))
    | some s =>
      rw [buildModels, discoverItem_of_idOk m (h m (List.mem_cons_self m ms)), hk,
        List.filterMap_cons_some hk,
        ih (fun x hx => h x (List.mem_cons_of_mem m hx))]
      rfl

/-- **C4 (amended).** The discovery result is shaped from the upstream
response as follows: a network failure is the distinct unreachable
error; a non-2xx status is an upstream error carrying that status; a 2xx
body whose `data` field (or the body itself) is a list of items, each a
dict whose `id` is absent, falsy, or a string, yields exactly the kept
ids — the truthy string ids, in order — and a 2xx body that shapes to a
non-list signals the bad-format error. -/
theorem fetch_models_shaping :
    fetch_provider_models .netFailure = .error .unreachable
    ∧ (∀ status body, status < 200 ∨ 300 ≤ status →
        fetch_provider_models (.response status body) = .error (.upstreamError status))
    ∧ (∀ status body ms, 200 ≤ status → status < 300 →
        rawModels body = .arr ms → (∀ m ∈ ms, idOkB m = true) →
        fetch_provider_models (.response status body)
          = .ok ((ms.filterMap keptId).map (fun s => (⟨s, false, none⟩ : DiscoveredModel))))
    ∧ (∀ status body, 200 ≤ status → status < 300 →
        (∀ ms, ¬(rawModels body = .arr ms)) →
        fetch_provider_models (.response status body) = .error .badFormat) := by
  refine ⟨rfl, ?_, ?_, ?_⟩
  · intro status body hs
    show (if (decide (status < 200) || decide (300 ≤ status)) = true
        then Except.error (UpstreamErr.upstreamError status)
        else match rawModels body with
          | Json.arr ms => buildModels ms
          | _ => Except.error UpstreamErr.badFormat) = _
    rw [if_pos (by rcases hs with h | h <;> simp [h])]
  · intro status body ms h1 h2 hr hok
    show (if (decide (status < 200) || decide (300 ≤ status)) = true
        then Except.error (UpstreamErr.upstreamError status)
        else match rawModels body with
          | Json.arr ms => buildModels ms
          | _ => Except.error UpstreamErr.badFormat) = _
    rw [if_neg (by simp only [Bool.or_eq_true, decide_eq_true_eq, not_or, not_lt]; omega), hr]
    exact buildModels_filterMap ms hok
  · intro status body h1 h2 hnl
    show (if (decide (status < 200) || decide (300 ≤ status)) = true
        then Except.error (UpstreamErr.upstreamError status)
        else match rawModels body with
          | Json.arr ms => buildModels ms
          | _ => Except.error UpstreamErr.badFormat) = _
    rw [if_neg (by simp only [Bool.or_eq_true, decide_eq_true_eq, not_or, not_lt]; omega)]
    cases hr : rawModels body with
    | arr ms => exact absurd hr (hnl ms)
    | null => rfl
    | bool b => rfl
    | num n => rfl
    | str s => rfl
    | obj kvs => rfl

theorem fetch_models_shaping_witness :
    fetch_provider_models .netFailure = .error .unreachable
    ∧ fetch_provider_models (.response 500 (.obj [])) = .error (.upstreamError 500)
    ∧ fetch_provider_models (.response 200
        (.obj [("data", .arr [.obj [("id", .str "m1")], .obj [("id", .str "m2")],
          .obj [("noid", .bool true)]])]))
      = .ok [⟨"m1", false, none⟩, ⟨"m2", false, none⟩]
    ∧ fetch_provider_models (.response 200 (.arr [.obj [("id", .str "m3")]]))
      = .ok [⟨"m3", false, none⟩]
    ∧ fetch_provider_models (.response 200 (.str "nope")) = .error .badFormat := by
  have W := fetch_models_shaping
  exact ⟨W.1,
    W.2.1 500 (.obj []) (Or.inr (by omega)),
    (W.2.2.1 200 (.obj [("data", .arr [.obj [("id", .str "m1")], .obj [("id", .str "m2")],
      .obj [("noid", .bool true)]])])
      [.obj [("id", .str "m1")], .obj [("id", .str "m2")],
      .obj [("noid", .bool true)]] (by omega) (by omega) rfl (by decide)).trans rfl,
    (W.2.2.1 200 (.arr [.obj [("id", .str "m3")]])
      [.obj [("id", .str "m3")]] (by omega) (by omega) rfl (by decide)).trans rfl,
    W.2.2.2 200 (.str "nope") (by omega) (by omega)
      (fun ms hcontra => Json.noConfusion hcontra)⟩

theorem mkdirs_opencode_shape (fs fs1 : FS) (h : fs.mkdirs OPENCODE_DIR = some fs1) :
    fs1 = ⟨fs.files, OPENCODE_DIR.inits ++ fs.dirs⟩ := by
  unfold FS.mkdirs at h
  have h2 : (if ((resolvePath OPENCODE_DIR).inits.filter (fun q => !q.isEmpty)).any
        (fun q => (fs.rawRead q).isSome)
      then none
      else some (⟨fs.files, (resolvePath OPENCODE_DIR).inits ++ fs.dirs⟩ : FS))
      = some fs1 := h
  rw [resolvePath_opencode] at h2
  by_cases hg : (OPENCODE_DIR.inits.filter (fun q => !q.isEmpty)).any
      (fun q => (fs.rawRead q).isSome)
  · rw [if_pos hg] at h2
    exact Option.noConfusion h2
  · rw [if_neg hg] at h2
    exact (Option.some.inj h2).symm

theorem copy2_dirs (fs : FS) (src dst : FsPath) :
    ((copy2 fs src dst).1).dirs = fs.dirs := by
  unfold copy2
  cases hr : fs.readFile src with
  | none => rfl
  | some content =>
    show (if resolvePath src
        = resolvePath (if fs.isDir dst then dst ++ [lastComponent src] else dst)
      then (fs, some IOErr.sameFile)
      else (fs.writeFile (if fs.isDir dst then dst ++ [lastComponent src] else dst) content,
        none)).1.dirs = fs.dirs
    split <;> split <;> rfl

theorem copy2_readFile_preserved (fs : FS) (src dst q : FsPath)
    (h1 : ¬(resolvePath q = resolvePath dst))
    (h2 : ¬(resolvePath q = resolvePath (dst ++ [lastComponent src]))) :
    ((copy2 fs src dst).1).readFile q = fs.readFile q := by
  unfold copy2
  cases hr : fs.readFile src with
  | none => rfl
  | some content =>
    show (if resolvePath src
        = resolvePath (if fs.isDir dst then dst ++ [lastComponent src] else dst)
      then (fs, some IOErr.sameFile)
      else (fs.writeFile (if fs.isDir dst then dst ++ [lastComponent src] else dst) content,
        none)).1.readFile q = fs.readFile q
    by_cases hd : fs.isDir dst
    · rw [if_pos hd]
      split
      · rfl
      · show (fs.writeFile (dst ++ [lastComponent src]) content).readFile q = _
        rw [readFile_writeFile, if_neg h2]
    · rw [if_neg hd]
      split
      · rfl
      · show (fs.writeFile dst content).readFile q = _
        rw [readFile_writeFile, if_neg h1]

theorem isDir_congr_dirs (X Y : FS) (q : FsPath) (h : X.dirs = Y.dirs) :
    X.isDir q = Y.isDir q := by
  unfold FS.isDir
  rw [h]

theorem lastComponent_append_one (p : FsPath) (c : String) :
    lastComponent (p ++ [c]) = c := by
  unfold lastComponent
  rw [List.getLast?_concat]
  rfl

theorem resolve_append_one_getLast (p : FsPath) (c : String)
    (h1 : ¬(c = ".")) (h2 : ¬(c = "..")) :
    (resolvePath (p ++ [c])).getLast? = some c := by
  rw [resolvePath_append_one p c h1 h2]
  exact List.getLast?_concat _

theorem apply_preserves_oh_my (fs : FS) (name : String)
    (hO : FS.pathExists ⟨fs.files, OPENCODE_DIR.inits ++ fs.dirs⟩
      (pathJoin OPENCODE_DIR name ++ ["oh-my-opencode.json"]) = false) :
    ((apply_set fs name).1).readFile ACTIVE_OH_MY = fs.readFile ACTIVE_OH_MY := by
  have hq1 : ¬(resolvePath ACTIVE_OH_MY = resolvePath ACTIVE_CONFIG) := by decide
  have hq2 : ¬(resolvePath ACTIVE_OH_MY
      = resolvePath (ACTIVE_CONFIG ++ ["config.json"])) := by decide
  have hlast : (resolvePath (pathJoin OPENCODE_DIR name
      ++ ["oh-my-opencode.json"])).getLast? = some "oh-my-opencode.json" :=
    resolve_append_one_getLast _ _ (by decide) (by decide)
  have hsO1 : ¬(resolvePath (pathJoin OPENCODE_DIR name ++ ["oh-my-opencode.json"])
      = resolvePath ACTIVE_CONFIG) := fun e => by
    rw [e, show (resolvePath ACTIVE_CONFIG).getLast? = some "config.json" from by decide]
      at hlast
    exact absurd (Option.some.inj hlast) (by decide)
  have hsO2 : ¬(resolvePath (pathJoin OPENCODE_DIR name ++ ["oh-my-opencode.json"])
      = resolvePath (ACTIVE_CONFIG ++ ["config.json"])) := fun e => by
    rw [e, show (resolvePath (ACTIVE_CONFIG ++ ["config.json"])).getLast?
        = some "config.json" from by decide] at hlast
    exact absurd (Option.some.inj hlast) (by decide)
  unfold apply_set
  show (if !(fs.isDir (pathJoin OPENCODE_DIR name)) then (fs, some IOErr.notFound)
    else match fs.mkdirs OPENCODE_DIR with
      | none => (fs, some IOErr.fileExists)
      | some fs1 =>
        match (if fs1.pathExists (pathJoin OPENCODE_DIR name ++ ["config.json"])
            then copy2 fs1 (pathJoin OPENCODE_DIR name ++ ["config.json"]) ACTIVE_CONFIG
            else (fs1, none)) with
        | (fs2, some e) => (fs2, some e)
        | (fs2, none) =>
          if fs2.pathExists (pathJoin OPENCODE_DIR name ++ ["oh-my-opencode.json"])
          then copy2 fs2 (pathJoin OPENCODE_DIR name ++ ["oh-my-opencode.json"]) ACTIVE_OH_MY
          else (fs2, none)).1.readFile ACTIVE_OH_MY = fs.readFile ACTIVE_OH_MY
  cases hb : fs.isDir (pathJoin OPENCODE_DIR name) with
  | false => rw [if_pos (by rfl)]
  | true =>
    rw [if_neg (by decide)]
    cases hmk : fs.mkdirs OPENCODE_DIR with
    | none => rfl
    | some fs1 =>
      have hshape := mkdirs_opencode_shape fs fs1 hmk
      subst hshape
      show (match (if FS.pathExists ⟨fs.files, OPENCODE_DIR.inits ++ fs.dirs⟩
            (pathJoin OPENCODE_DIR name ++ ["config.json"])
          then copy2 ⟨fs.files, OPENCODE_DIR.inits ++ fs.dirs⟩
            (pathJoin OPENCODE_DIR name ++ ["config.json"]) ACTIVE_CONFIG
          else (⟨fs.files, OPENCODE_DIR.inits ++ fs.dirs⟩, none)) with
        | (fs2, some e) => (fs2, some e)
        | (fs2, none) =>
          if fs2.pathExists (pathJoin OPENCODE_DIR name ++ ["oh-my-opencode.json"])
          then copy2 fs2 (pathJoin OPENCODE_DIR name ++ ["oh-my-opencode.json"]) ACTIVE_OH_MY
          else (fs2, none)).1.readFile ACTIVE_OH_MY = fs.readFile ACTIVE_OH_MY
      by_cases hpc : FS.pathExists ⟨fs.files, OPENCODE_DIR.inits ++ fs.dirs⟩
          (pathJoin OPENCODE_DIR name ++ ["config.json"]) = true
      · rw [if_pos hpc]
        rcases hcp : copy2 ⟨fs.files, OPENCODE_DIR.inits ++ fs.dirs⟩
          (pathJoin OPENCODE_DIR name ++ ["config.json"]) ACTIVE_CONFIG with ⟨fs2, oe⟩
        have hf2 : (copy2 ⟨fs.files, OPENCODE_DIR.inits ++ fs.dirs⟩
            (pathJoin OPENCODE_DIR name ++ ["config.json"]) ACTIVE_CONFIG).1 = fs2 := by
          rw [hcp]
        have hpres : fs2.readFile ACTIVE_OH_MY = fs.readFile ACTIVE_OH_MY := by
          rw [← hf2, copy2_readFile_preserved _ _ _ _ hq1
            (by rw [lastComponent_append_one]; exact hq2), readFile_mk_files]
        have hdirs2 : fs2.dirs = OPENCODE_DIR.inits ++ fs.dirs := by
          rw [← hf2, copy2_dirs]
        cases oe with
        | some e => exact hpres
        | none =>
          have hpeO : fs2.pathExists
              (pathJoin OPENCODE_DIR name ++ ["oh-my-opencode.json"]) = false := by
            have hO2 : ((FS.readFile ⟨fs.files, OPENCODE_DIR.inits ++ fs.dirs⟩
                  (pathJoin OPENCODE_DIR name ++ ["oh-my-opencode.json"])).isSome
                || FS.isDir ⟨fs.files, OPENCODE_DIR.inits ++ fs.dirs⟩
                  (pathJoin OPENCODE_DIR name ++ ["oh-my-opencode.json"])) = false := hO
            unfold FS.pathExists
            rw [show fs2.readFile (pathJoin OPENCODE_DIR name ++ ["oh-my-opencode.json"])
                = FS.readFile ⟨fs.files, OPENCODE_DIR.inits ++ fs.dirs⟩
                  (pathJoin OPENCODE_DIR name ++ ["oh-my-opencode.json"]) from by
              rw [← hf2]
              exact copy2_readFile_preserved _ _ _ _ hsO1
                (by rw [lastComponent_append_one]; exact hsO2)]
            rw [isDir_congr_dirs fs2 ⟨fs.files, OPENCODE_DIR.inits ++ fs.dirs⟩ _ (by rw [hdirs2])]
            exact hO2
          show (if fs2.pathExists (pathJoin OPENCODE_DIR name ++ ["oh-my-opencode.json"])
            then copy2 fs2 (pathJoin OPENCODE_DIR name ++ ["oh-my-opencode.json"]) ACTIVE_OH_MY
            else (fs2, none)).1.readFile ACTIVE_OH_MY = fs.readFile ACTIVE_OH_MY
          rw [if_neg (by rw [hpeO]; decide)]
          exact hpres
      · rw [if_neg hpc]
        show (if FS.pathExists ⟨fs.files, OPENCODE_DIR.inits ++ fs.dirs⟩
            (pathJoin OPENCODE_DIR name ++ ["oh-my-opencode.json"])
          then copy2 ⟨fs.files, OPENCODE_DIR.inits ++ fs.dirs⟩
            (pathJoin OPENCODE_DIR name ++ ["oh-my-opencode.json"]) ACTIVE_OH_MY
          else (⟨fs.files, OPENCODE_DIR.inits ++ fs.dirs⟩, none)).1.readFile ACTIVE_OH_MY
          = fs.readFile ACTIVE_OH_MY
        rw [if_neg (by rw [hO]; decide)]
        exact readFile_mk_files fs _ ACTIVE_OH_MY

theorem apply_preserves_config (fs : FS) (name : String)
    (hC : FS.pathExists ⟨fs.files, OPENCODE_DIR.inits ++ fs.dirs⟩
      (pathJoin OPENCODE_DIR name ++ ["config.json"]) = false) :
    ((apply_set fs name).1).readFile ACTIVE_CONFIG = fs.readFile ACTIVE_CONFIG := by
  have hq1 : ¬(resolvePath ACTIVE_CONFIG = resolvePath ACTIVE_OH_MY) := by decide
  have hq2 : ¬(resolvePath ACTIVE_CONFIG
      = resolvePath (ACTIVE_OH_MY ++ ["oh-my-opencode.json"])) := by decide
  unfold apply_set
  show (if !(fs.isDir (pathJoin OPENCODE_DIR name)) then (fs, some IOErr.notFound)
    else match fs.mkdirs OPENCODE_DIR with
      | none => (fs, some IOErr.fileExists)
      | some fs1 =>
        match (if fs1.pathExists (pathJoin OPENCODE_DIR name ++ ["config.json"])
            then copy2 fs1 (pathJoin OPENCODE_DIR name ++ ["config.json"]) ACTIVE_CONFIG
            else (fs1, none)) with
        | (fs2, some e) => (fs2, some e)
        | (fs2, none) =>
          if fs2.pathExists (pathJoin OPENCODE_DIR name ++ ["oh-my-opencode.json"])
          then copy2 fs2 (pathJoin OPENCODE_DIR name ++ ["oh-my-opencode.json"]) ACTIVE_OH_MY
          else (fs2, none)).1.readFile ACTIVE_CONFIG = fs.readFile ACTIVE_CONFIG
  cases hb : fs.isDir (pathJoin OPENCODE_DIR name) with
  | false => rw [if_pos (by rfl)]
  | true =>
    rw [if_neg (by decide)]
    cases hmk : fs.mkdirs OPENCODE_DIR with
    | none => rfl
    | some fs1 =>
      have hshape := mkdirs_opencode_shape fs fs1 hmk
      subst hshape
      show (match (if FS.pathExists ⟨fs.files, OPENCODE_DIR.inits ++ fs.dirs⟩
            (pathJoin OPENCODE_DIR name ++ ["config.json"])
          then copy2 ⟨fs.files, OPENCODE_DIR.inits ++ fs.dirs⟩
            (pathJoin OPENCODE_DIR name ++ ["config.json"]) ACTIVE_CONFIG
          else (⟨fs.files, OPENCODE_DIR.inits ++ fs.dirs⟩, none)) with
        | (fs2, some e) => (fs2, some e)
        | (fs2, none) =>
          if fs2.pathExists (pathJoin OPENCODE_DIR name ++ ["oh-my-opencode.json"])
          then copy2 fs2 (pathJoin OPENCODE_DIR name ++ ["oh-my-opencode.json"]) ACTIVE_OH_MY
          else (fs2, none)).1.readFile ACTIVE_CONFIG = fs.readFile ACTIVE_CONFIG
      rw [if_neg (by rw [hC]; decide)]
      show (if FS.pathExists ⟨fs.files, OPENCODE_DIR.inits ++ fs.dirs⟩
          (pathJoin OPENCODE_DIR name ++ ["oh-my-opencode.json"])
        then copy2 ⟨fs.files, OPENCODE_DIR.inits ++ fs.dirs⟩
          (pathJoin OPENCODE_DIR name ++ ["oh-my-opencode.json"]) ACTIVE_OH_MY
        else (⟨fs.files, OPENCODE_DIR.inits ++ fs.dirs⟩, none)).1.readFile ACTIVE_CONFIG
        = fs.readFile ACTIVE_CONFIG
      by_cases hpo : FS.pathExists ⟨fs.files, OPENCODE_DIR.inits ++ fs.dirs⟩
          (pathJoin OPENCODE_DIR name ++ ["oh-my-opencode.json"]) = true
      · rw [if_pos hpo]
        rw [copy2_readFile_preserved _ _ _ _ hq1
          (by rw [lastComponent_append_one]; exact hq2)]
        exact readFile_mk_files fs _ ACTIVE_CONFIG
      · rw [if_neg hpo]
        exact readFile_mk_files fs _ ACTIVE_CONFIG

/-- **C6.** When the named set lacks the extension config file,
`apply_set` leaves the active extension config byte-identical to its
prior content; symmetrically, when the set lacks the assistant config
file, the active assistant config is untouched. -/
theorem apply_set_missing_file_frame (fs : FS) (name : String) :
    (FS.pathExists ⟨fs.files, OPENCODE_DIR.inits ++ fs.dirs⟩
        (pathJoin OPENCODE_DIR name ++ ["oh-my-opencode.json"]) = false →
      ((apply_set fs name).1).readFile ACTIVE_OH_MY = fs.readFile ACTIVE_OH_MY)
    ∧ (FS.pathExists ⟨fs.files, OPENCODE_DIR.inits ++ fs.dirs⟩
        (pathJoin OPENCODE_DIR name ++ ["config.json"]) = false →
      ((apply_set fs name).1).readFile ACTIVE_CONFIG = fs.readFile ACTIVE_CONFIG) :=
  ⟨apply_preserves_oh_my fs name, apply_preserves_config fs name⟩

theorem apply_set_missing_file_frame_witness :
    FS.pathExists ⟨[(ACTIVE_OH_MY, ['y']), (OPENCODE_DIR ++ ["a", "config.json"], ['x'])],
        OPENCODE_DIR.inits ++ [OPENCODE_DIR, OPENCODE_DIR ++ ["a"]]⟩
      (pathJoin OPENCODE_DIR "a" ++ ["oh-my-opencode.json"]) = false
    ∧ ((apply_set ⟨[(ACTIVE_OH_MY, ['y']), (OPENCODE_DIR ++ ["a", "config.json"], ['x'])],
        [OPENCODE_DIR, OPENCODE_DIR ++ ["a"]]⟩ "a").1).readFile ACTIVE_OH_MY
      = FS.readFile ⟨[(ACTIVE_OH_MY, ['y']), (OPENCODE_DIR ++ ["a", "config.json"], ['x'])],
        [OPENCODE_DIR, OPENCODE_DIR ++ ["a"]]⟩ ACTIVE_OH_MY :=
  ⟨by decide,
    (apply_set_missing_file_frame ⟨[(ACTIVE_OH_MY, ['y']),
      (OPENCODE_DIR ++ ["a", "config.json"], ['x'])],
      [OPENCODE_DIR, OPENCODE_DIR ++ ["a"]]⟩ "a").1 (by decide)⟩

theorem strLtb_asymm (a b : List Char) (h : strLtb a b = true) : strLtb b a = false := by
  induction a generalizing b with
  | nil =>
    cases b with
    | nil => simp [strLtb] at h
    | cons c cs => rfl
  | cons x xs ih =>
    cases b with
    | nil => simp [strLtb] at h
    | cons y ys =>
      rw [strLtb] at h ⊢
      by_cases h1 : x.toNat < y.toNat
      · rw [if_neg (by omega), if_pos h1]
      · rw [if_neg h1] at h
        by_cases h2 : y.toNat < x.toNat
        · rw [if_pos h2] at h
          exact absurd h (by simp)
        · rw [if_neg h2] at h
          rw [if_neg h2, if_neg h1]
          exact ih ys h

theorem strLtb_neg_trans (c : List Char) : ∀ a b : List Char,
    strLtb b a = false → strLtb c b = false → strLtb c a = false := by
  induction c with
  | nil =>
    intro a b h1 h2
    cases a with
    | nil => rfl
    | cons x xs =>
      cases b with
      | nil => exact absurd h1 (by simp [strLtb])
      | cons y ys => exact absurd h2 (by simp [strLtb])
  | cons z zs ih =>
    intro a b h1 h2
    cases a with
    | nil => rfl
    | cons x xs =>
      cases b with
      | nil => exact absurd h1 (by simp [strLtb])
      | cons y ys =>
        rw [strLtb] at h1 h2 ⊢
        by_cases hyx : y.toNat < x.toNat
        · rw [if_pos hyx] at h1
          exact absurd h1 (by simp)
        · rw [if_neg hyx] at h1
          by_cases hzy : z.toNat < y.toNat
          · rw [if_pos hzy] at h2
            exact absurd h2 (by simp)
          · rw [if_neg hzy] at h2
            by_cases hzx : z.toNat < x.toNat
            · omega
            · rw [if_neg hzx]
              by_cases hxz : x.toNat < z.toNat
              · rw [if_pos hxz]
              · rw [if_neg hxz]
                have hxy : ¬(x.toNat < y.toNat) := by omega
                have hyz : ¬(y.toNat < z.toNat) := by omega
                rw [if_neg hxy] at h1
                rw [if_neg hyz] at h2
                exact ih xs ys h1 h2

instance : IsTrans String (fun a b => strLeb a b = true) := ⟨fun a b c h1 h2 => by
  unfold strLeb at *
  rw [Bool.not_eq_true'] at *
  exact strLtb_neg_trans c.data a.data b.data h1 h2⟩

instance : IsTotal String (fun a b => strLeb a b = true) := ⟨fun a b => by
  unfold strLeb
  cases hl : strLtb b.data a.data with
  | false => exact Or.inl rfl
  | true => exact Or.inr (by rw [strLtb_asymm b.data a.data hl]; rfl)⟩

/-- One entry of the `list_sets` comprehension. -/
def listEntry (fs1 : FS) (n : String) : Option ConfigSet :=
  if fs1.isDir (OPENCODE_DIR ++ [n]) then
    let hasC := fs1.pathExists (OPENCODE_DIR ++ [n, "config.json"])
    let hasO := fs1.pathExists (OPENCODE_DIR ++ [n, "oh-my-opencode.json"])
    if hasC || hasO then some ⟨n, hasC, hasO⟩ else none
  else none

theorem listEntry_name (fs1 : FS) (n : String) (s : ConfigSet)
    (h : listEntry fs1 n = some s) : s.name = n := by
  have h2 : (if fs1.isDir (OPENCODE_DIR ++ [n])
      then (if (fs1.pathExists (OPENCODE_DIR ++ [n, "config.json"])
          || fs1.pathExists (OPENCODE_DIR ++ [n, "oh-my-opencode.json"]))
        then some (⟨n, fs1.pathExists (OPENCODE_DIR ++ [n, "config.json"]),
          fs1.pathExists (OPENCODE_DIR ++ [n, "oh-my-opencode.json"])⟩ : ConfigSet)
        else none)
      else none) = some s := h
  by_cases hd : fs1.isDir (OPENCODE_DIR ++ [n])
  · rw [if_pos hd] at h2
    by_cases hh : (fs1.pathExists (OPENCODE_DIR ++ [n, "config.json"])
        || fs1.pathExists (OPENCODE_DIR ++ [n, "oh-my-opencode.json"])) = true
    · rw [if_pos hh] at h2
      exact (congrArg ConfigSet.name (Option.some.inj h2)).symm
    · rw [if_neg hh] at h2
      exact Option.noConfusion h2
  · rw [if_neg hd] at h2
    exact Option.noConfusion h2

theorem pairwise_filterMap_name {α β : Type} (R : α → α → Prop) (g : β → α)
    (f : α → Option β) (hf : ∀ a b, f a = some b → g b = a) (l : List α)
    (h : List.Pairwise R l) :
    List.Pairwise (fun x y => R (g x) (g y)) (l.filterMap f) := by
  induction l with
  | nil => exact List.Pairwise.nil
  | cons a l ih =>
    rcases h with _ | ⟨ha, hl⟩
    cases hfa : f a with
    | none => rw [List.filterMap_cons_none hfa]; exact ih hl
    | some b =>
      rw [List.filterMap_cons_some hfa]
      constructor
      · intro c hc
        rcases List.mem_filterMap.mp hc with ⟨x, hx, hfx⟩
        rw [hf a b hfa, hf x c hfx]
        exact ha x hx
      · exact ih hl

theorem listEntry_mem_iff (fs1 : FS) (n : String) (s : ConfigSet) :
    listEntry fs1 n = some s ↔
      (s.name = n ∧ fs1.isDir (OPENCODE_DIR ++ [n]) = true
        ∧ s.has_opencode = fs1.pathExists (OPENCODE_DIR ++ [n, "config.json"])
        ∧ s.has_oh_my_opencode = fs1.pathExists (OPENCODE_DIR ++ [n, "oh-my-opencode.json"])
        ∧ (s.has_opencode = true ∨ s.has_oh_my_opencode = true)) := by
  constructor
  · intro h
    have h2 : (if fs1.isDir (OPENCODE_DIR ++ [n])
        then (if (fs1.pathExists (OPENCODE_DIR ++ [n, "config.json"])
            || fs1.pathExists (OPENCODE_DIR ++ [n, "oh-my-opencode.json"]))
          then some (⟨n, fs1.pathExists (OPENCODE_DIR ++ [n, "config.json"]),
            fs1.pathExists (OPENCODE_DIR ++ [n, "oh-my-opencode.json"])⟩ : ConfigSet)
          else none)
        else none) = some s := h
    by_cases hd : fs1.isDir (OPENCODE_DIR ++ [n]) = true
    · rw [if_pos hd] at h2
      by_cases hh : (fs1.pathExists (OPENCODE_DIR ++ [n, "config.json"])
          || fs1.pathExists (OPENCODE_DIR ++ [n, "oh-my-opencode.json"])) = true
      · rw [if_pos hh] at h2
        have he := Option.some.inj h2
        rw [← he]
        exact ⟨rfl, hd, rfl, rfl, by simpa using hh⟩
      · rw [if_neg hh] at h2
        exact Option.noConfusion h2
    · rw [if_neg hd] at h2
      exact Option.noConfusion h2
  · rintro ⟨hn, hd, hfc, hfo, hor⟩
    show (if fs1.isDir (OPENCODE_DIR ++ [n])
      then (if (fs1.pathExists (OPENCODE_DIR ++ [n, "config.json"])
          || fs1.pathExists (OPENCODE_DIR ++ [n, "oh-my-opencode.json"]))
        then some (⟨n, fs1.pathExists (OPENCODE_DIR ++ [n, "config.json"]),
          fs1.pathExists (OPENCODE_DIR ++ [n, "oh-my-opencode.json"])⟩ : ConfigSet)
        else none)
      else none) = some s
    rw [if_pos hd, ← hfc, ← hfo, ← hn, if_pos (by simpa using hor)]

/-- **C8.** `list_sets` returns, in name-sorted order, exactly the
immediate children of the config root that are directories containing at
least one of the two known config filenames, each with its two presence
flags computed from the existence of the corresponding file. -/
theorem list_sets_characterization (fs : FS)
    (hroot : ∀ q, q <+: OPENCODE_DIR → ¬(q = []) → fs.rawRead q = none) :
    ((list_sets fs).1).2 = none
    ∧ List.Pairwise (fun s t => strLeb s.name t.name = true) (list_sets fs).2
    ∧ (∀ s : ConfigSet, s ∈ (list_sets fs).2 ↔
        (s.name ∈ FS.childNames ⟨fs.files, OPENCODE_DIR.inits ++ fs.dirs⟩ OPENCODE_DIR
          ∧ FS.isDir ⟨fs.files, OPENCODE_DIR.inits ++ fs.dirs⟩
              (OPENCODE_DIR ++ [s.name]) = true
          ∧ s.has_opencode = FS.pathExists ⟨fs.files, OPENCODE_DIR.inits ++ fs.dirs⟩
              (OPENCODE_DIR ++ [s.name, "config.json"])
          ∧ s.has_oh_my_opencode = FS.pathExists ⟨fs.files, OPENCODE_DIR.inits ++ fs.dirs⟩
              (OPENCODE_DIR ++ [s.name, "oh-my-opencode.json"])
          ∧ (s.has_opencode = true ∨ s.has_oh_my_opencode = true))) := by
  have hmk : fs.mkdirs OPENCODE_DIR = some ⟨fs.files, OPENCODE_DIR.inits ++ fs.dirs⟩ := by
    have h0 := @mkdirs_some_of fs OPENCODE_DIR
      (by intro q hq hqne; exact hroot q (by rwa [resolvePath_opencode] at hq) hqne)
    rwa [resolvePath_opencode] at h0
  have hls : list_sets fs
      = ((⟨fs.files, OPENCODE_DIR.inits ++ fs.dirs⟩, none),
        (FS.childNames ⟨fs.files, OPENCODE_DIR.inits ++ fs.dirs⟩ OPENCODE_DIR).filterMap
          (listEntry ⟨fs.files, OPENCODE_DIR.inits ++ fs.dirs⟩)) := by
    unfold list_sets
    rw [hmk]
    rfl
  refine ⟨by rw [hls], ?_, ?_⟩
  · rw [hls]
    exact pairwise_filterMap_name (fun a b => strLeb a b = true) ConfigSet.name
      (listEntry ⟨fs.files, OPENCODE_DIR.inits ++ fs.dirs⟩)
      (fun a b h => listEntry_name _ a b h)
      (FS.childNames ⟨fs.files, OPENCODE_DIR.inits ++ fs.dirs⟩ OPENCODE_DIR)
      (List.sorted_insertionSort _ _)
  · intro s
    rw [hls]
    show s ∈ (FS.childNames ⟨fs.files, OPENCODE_DIR.inits ++ fs.dirs⟩ OPENCODE_DIR).filterMap
      (listEntry ⟨fs.files, OPENCODE_DIR.inits ++ fs.dirs⟩) ↔ _
    rw [List.mem_filterMap]
    constructor
    · rintro ⟨n, hn, hfn⟩
      rcases (listEntry_mem_iff _ n s).mp hfn with ⟨hname, hdir, hfc, hfo, hor⟩
      refine ⟨?_, ?_, ?_, ?_, hor⟩ <;> rw [hname] <;> assumption
    · rintro ⟨hmem, hdir, hfc, hfo, hor⟩
      exact ⟨s.name, hmem, (listEntry_mem_iff _ s.name s).mpr ⟨rfl, hdir, hfc, hfo, hor⟩⟩

theorem list_sets_characterization_witness :
    ((list_sets ⟨[], [OPENCODE_DIR ++ ["a"], OPENCODE_DIR ++ ["a", "oh-my-opencode.json"],
        OPENCODE_DIR ++ ["b"], OPENCODE_DIR ++ ["b", "config.json"],
        OPENCODE_DIR ++ ["zz"]]⟩).1).2 = none
    ∧ List.Pairwise (fun s t => strLeb s.name t.name = true)
        (list_sets ⟨[], [OPENCODE_DIR ++ ["a"], OPENCODE_DIR ++ ["a", "oh-my-opencode.json"],
          OPENCODE_DIR ++ ["b"], OPENCODE_DIR ++ ["b", "config.json"],
          OPENCODE_DIR ++ ["zz"]]⟩).2
    ∧ (⟨"a", false, true⟩ : ConfigSet) ∈ (list_sets ⟨[], [OPENCODE_DIR ++ ["a"],
        OPENCODE_DIR ++ ["a", "oh-my-opencode.json"], OPENCODE_DIR ++ ["b"],
        OPENCODE_DIR ++ ["b", "config.json"], OPENCODE_DIR ++ ["zz"]]⟩).2 :=
  ⟨(list_sets_characterization ⟨[], [OPENCODE_DIR ++ ["a"],
      OPENCODE_DIR ++ ["a", "oh-my-opencode.json"], OPENCODE_DIR ++ ["b"],
      OPENCODE_DIR ++ ["b", "config.json"], OPENCODE_DIR ++ ["zz"]]⟩
      (fun _ _ _ => rfl)).1,
    (list_sets_characterization ⟨[], [OPENCODE_DIR ++ ["a"],
      OPENCODE_DIR ++ ["a", "oh-my-opencode.json"], OPENCODE_DIR ++ ["b"],
      OPENCODE_DIR ++ ["b", "config.json"], OPENCODE_DIR ++ ["zz"]]⟩
      (fun _ _ _ => rfl)).2.1,
    ((list_sets_characterization ⟨[], [OPENCODE_DIR ++ ["a"],
      OPENCODE_DIR ++ ["a", "oh-my-opencode.json"], OPENCODE_DIR ++ ["b"],
      OPENCODE_DIR ++ ["b", "config.json"], OPENCODE_DIR ++ ["zz"]]⟩
      (fun _ _ _ => rfl)).2.2 ⟨"a", false, true⟩).mpr (by decide)⟩
